import Mathlib

/-!
Verification development for the CCLLT2I repository: three near-identical
Python scripts (`qwen-image-plus.py`, `seedream3.0&4.0.py`,
`wan2.5-t2i-preview.py`) that read prompts from a spreadsheet and call a
vendor text-to-image HTTP API with retry.

The scripts are shallowly embedded: JSON values become an inductive `Json`;
the network is an explicit environment (a function from attempt index to the
HTTP event the attempt observes); `base64.b64decode`, `requests.get` for the
image URL, and PIL image validation are abstract function parameters
(`dec`, `fetchEv`, `imgOk`); Python exceptions that escape to an enclosing
`except` are an `Except Unit` error; console printing is dropped except
where a claim is about the printed failure reason, which is returned as
data.
-/

/-- Raw image bytes. -/
abbrev Bytes := List Nat

/-- JSON values as Python's `json` module materialises them: objects have
string keys. -/
inductive Json where
  | str (s : String)
  | num (n : Int)
  | bool (b : Bool)
  | null
  | arr (xs : List Json)
  | obj (fields : List (String × Json))
  deriving Repr

mutual

/-- Structural equality of JSON values (Python `==` restricted to the
values the scripts compare). -/
def Json.beq : Json → Json → Bool
  | .str a, .str b => a == b
  | .num a, .num b => a == b
  | .bool a, .bool b => a == b
  | .null, .null => true
  | .arr xs, .arr ys => beqJsonList xs ys
  | .obj fs, .obj gs => beqJsonFields fs gs
  | _, _ => false

def beqJsonList : List Json → List Json → Bool
  | [], [] => true
  | x :: xs, y :: ys => Json.beq x y && beqJsonList xs ys
  | _, _ => false

def beqJsonFields : List (String × Json) → List (String × Json) → Bool
  | [], [] => true
  | (k, v) :: fs, (l, w) :: gs => k == l && Json.beq v w && beqJsonFields fs gs
  | _, _ => false

end

/-- Key lookup in an association list, first match wins (a parsed JSON
object has no duplicate keys). -/
def lookFs : List (String × Json) → String → Option Json
  | [], _ => none
  | (k, v) :: rest, key => if k = key then some v else lookFs rest key

/-- Dictionary lookup; `none` on a non-object or a missing key. -/
def Json.lookup : Json → String → Option Json
  | .obj fs, key => lookFs fs key
  | _, _ => none

/-- Python truthiness of a JSON value: empty string/list/dict, zero, false
and None are falsy. -/
def Json.truthy : Json → Bool
  | .str s => !s.isEmpty
  | .num n => n != 0
  | .bool b => b
  | .null => false
  | .arr xs => !xs.isEmpty
  | .obj fs => !fs.isEmpty

/-- Python `x[0]`: list head, first character of a string; raises
(IndexError / KeyError / TypeError) otherwise. A JSON-parsed dict has only
string keys, so `d[0]` always raises KeyError. -/
def pyIndex0 : Json → Except Unit Json
  | .arr (x :: _) => .ok x
  | .arr [] => .error ()
  | .str s => if s.isEmpty then .error () else .ok (.str (s.take 1))
  | _ => .error ()

/-- Python `len(x)`; raises TypeError on numbers, booleans and None. -/
def pyLen : Json → Except Unit Nat
  | .arr xs => .ok xs.length
  | .str s => .ok s.length
  | .obj fs => .ok fs.length
  | _ => .error ()

/-- Whether `pat` occurs as a substring of `s` (for Python `"k" in str`). -/
def strContains (s pat : String) : Bool :=
  (s.splitOn pat).length > 1

/-- Python `key in x`: dict key membership, substring test on strings,
element membership on lists; raises TypeError otherwise. -/
def pyContains (key : String) : Json → Except Unit Bool
  | .obj fs => .ok (fs.any (fun p => p.1 == key))
  | .str s => .ok (strContains s key)
  | .arr xs => .ok (xs.any (fun x => Json.beq x (.str key)))
  | _ => .error ()

/-- Python `x[key]` subscription: the value on a dict holding the key;
raises otherwise (KeyError / TypeError). -/
def pySubscript : Json → String → Except Unit Json
  | .obj fs, key =>
      match lookFs fs key with
      | some v => .ok v
      | none => .error ()
  | _, _ => .error ()

/-- Python `x.get(key, default)`: only dicts have `.get`; raises
AttributeError otherwise. -/
def pyGetD (j : Json) (key : String) (dflt : Json) : Except Unit Json :=
  match j with
  | .obj fs =>
      match lookFs fs key with
      | some v => .ok v
      | none => .ok dflt
  | _ => .error ()

/-- `base64.b64decode(v)` under a surrounding bare `except`: applying the
abstract decoder `dec` when `v` is a string, failure (`none`) otherwise —
decoding a non-string raises and the caller catches it. -/
def pyDecArg (dec : String → Option Bytes) : Json → Option Bytes
  | .str s => dec s
  | _ => none

/-- Python `str.startswith(pre)`, structurally recursive over the
character list so concrete values evaluate in proofs. -/
def pyStartsWith (s pre : String) : Bool :=
  pre.data.isPrefixOf s.data

/-- Outcome of one `requests.get(url)` image download. -/
inductive FetchRes where
  | ok (status : Nat) (content : Bytes)
  | exc
  deriving Repr, DecidableEq

/-! ## Row Source: `read_texts_from_excel`

Identical in all three scripts (`qwen-image-plus.py` lines 39-73,
`seedream3.0&4.0.py` lines 37-71, `wan2.5-t2i-preview.py` lines 42-76).
The input is the DataFrame's rows as lists of already-stringified cells
(`str(row.iloc[column_index])`); with a header the first file row was
consumed by `pd.read_excel`, which the `start_row` offset accounts for. -/

/-- Python `str.strip()`: surrounding whitespace removed (structurally
recursive over the character list, so concrete cells evaluate in
proofs). -/
def pyStrip (s : String) : String :=
  ⟨((s.data.dropWhile Char.isWhitespace).reverse.dropWhile
      Char.isWhitespace).reverse⟩

/-- Python `str.lower()` on the ASCII range the sentinel check uses. -/
def pyLower (s : String) : String :=
  ⟨s.data.map Char.toLower⟩

/-- One step per DataFrame row: keep `(idx + start_row, text)` when the
column is in range and the stripped text is non-empty, not `nan`
case-insensitively, and not `None`. -/
def readGo (column_index start_row : Nat) : Nat → List (List String) → List (Nat × String)
  | _, [] => []
  | idx, row :: rest =>
      (if h : column_index < row.length then
        let text := pyStrip (row[column_index])
        if text ≠ "" ∧ pyLower text ≠ "nan" ∧ text ≠ "None" then
          [(idx + start_row, text)]
        else []
      else []) ++ readGo column_index start_row (idx + 1) rest

/-- `SimpleImageGenerator.read_texts_from_excel`: `start_row` is 2 with a
header and 1 without; rows are scanned in order. -/
def read_texts_from_excel (rows : List (List String)) (column_index : Nat)
    (has_header : Bool) : List (Nat × String) :=
  readGo column_index (if has_header then 2 else 1) 0 rows

/-- The skip predicate of the Row Source, on the stripped cell text. -/
def skipCell (t : String) : Prop :=
  t = "" ∨ pyLower t = "nan" ∨ t = "None"

instance (t : String) : Decidable (skipCell t) := by
  unfold skipCell; infer_instance

/-! ## Batch Driver: `batch_generate`

Identical control flow in all three scripts (`qwen-image-plus.py` lines
270-300, `seedream3.0&4.0.py` lines 164-185, `wan2.5-t2i-preview.py` lines
293-319); only the per-row generation call differs, so it is a parameter
`genRow : row position → (returned a filepath?, network calls made)`. -/

structure BatchResult where
  success_rows : List Nat
  failed_rows : List Nat
  /-- Number of `time.sleep(delay)` calls performed by the loop body. -/
  delaySleeps : Nat
  /-- Total network calls made by the per-row generations. -/
  calls : Nat
  deriving Repr, DecidableEq

/-- The body of the `for row_num, text in texts` loop; `delayOn` is the
condition `delay > 0 and len(texts) > 1`, constant across iterations. -/
def batchGo (genRow : Nat → Bool × Nat) (delayOn : Bool) :
    Nat → List (Nat × String) → BatchResult
  | _, [] => ⟨[], [], 0, 0⟩
  | i, (row_num, _) :: rest =>
      let g := genRow i
      let r := batchGo genRow delayOn (i + 1) rest
      { success_rows := if g.1 then row_num :: r.success_rows else r.success_rows
        failed_rows := if g.1 then r.failed_rows else row_num :: r.failed_rows
        delaySleeps := (if delayOn then 1 else 0) + r.delaySleeps
        calls := g.2 + r.calls }

/-- `SimpleImageGenerator.batch_generate`: the inter-row sleep runs after
every processed row whenever `delay > 0 and len(texts) > 1`. -/
def batch_generate (genRow : Nat → Bool × Nat) (texts : List (Nat × String))
    (delay : ℚ) : BatchResult :=
  batchGo genRow (decide (0 < delay) && decide (1 < texts.length)) 0 texts

/-! ## Generation Adapter, synchronous 200-response handling

`qwen-image-plus.py` lines 142-214 (`generate_image`, the
`response.status_code == 200` block) and `seedream3.0&4.0.py` lines
105-140. The handler first computes `image_data` / `image_url` from the
body, then downloads `image_url` when truthy. -/

/-- What a 200-response handler produced: the final `image_data`, and the
URLs on which a download `requests.get` was attempted (with a string
argument). -/
structure P200 where
  imageData : Option Bytes
  fetched : List String
  deriving Repr, DecidableEq

/-- The qwen shape-(b) branch, `elif "output" in result:`
(`qwen-image-plus.py` lines 162-184): walks
`output.choices[0].message.content[0].image`; the value is kept as
`image_url` and, when it is a truthy string not starting with `http`,
also base64-decoded. A truthy non-string raises at `.startswith`. -/
def qwenBranchOutput (dec : String → Option Bytes) (out : Json) :
    Except Unit (Option Bytes × Option Json) :=
  match Json.lookup out "choices" with
  | none => .ok (none, none)
  | some choices =>
      if choices.truthy then do
        let n ← pyLen choices
        if 0 < n then do
          let choice ← pyIndex0 choices
          match Json.lookup choice "message" with
          | none => pure (none, none)
          | some message =>
              match Json.lookup message "content" with
              | none => pure (none, none)
              | some contents =>
                  if contents.truthy then do
                    let m ← pyLen contents
                    if 0 < m then do
                      let content ← pyIndex0 contents
                      match Json.lookup content "image" with
                      | none => pure (none, none)
                      | some imgv =>
                          if imgv.truthy then
                            match imgv with
                            | .str s =>
                                if pyStartsWith s "http" then pure (none, some (.str s))
                                else pure (dec s, some (.str s))
                            | _ => throw ()
                          else pure (pyDecArg dec imgv, some imgv)
                    else pure (none, none)
                  else pure (none, none)
        else pure (none, none)
      else .ok (none, none)

/-- The qwen shape-(c) branch, `elif "data" in result and result["data"]:`
(`qwen-image-plus.py` lines 186-199): `data[0]` with `url` taking
precedence over `b64_json`. `item.get("url")` on a non-dict raises; the
`b64_json` decode sits in a bare `try`. -/
def qwenBranchData (dec : String → Option Bytes) (v : Json) :
    Except Unit (Option Bytes × Option Json) :=
  if v.truthy then do
    let n ← pyLen v
    if 0 < n then do
      let item ← pyIndex0 v
      let hasUrl ← pyContains "url" item
      if hasUrl then
        match item with
        | .obj fs => pure (none, some ((lookFs fs "url").getD .null))
        | _ => throw ()
      else do
        let hasB ← pyContains "b64_json" item
        if hasB then
          match item with
          | .obj fs => pure (pyDecArg dec ((lookFs fs "b64_json").getD .null), none)
          | _ => pure (none, none)
        else pure (none, none)
    else pure (none, none)
  else .ok (none, none)

/-- The `elif "output" in result ... elif "data" in result and
result["data"]` tail of the qwen chain (`qwen-image-plus.py` lines
162-199). -/
def qwenAfterImages (dec : String → Option Bytes) (r : Json) :
    Except Unit (Option Bytes × Option Json) :=
  match Json.lookup r "output" with
  | some out => qwenBranchOutput dec out
  | none =>
      match Json.lookup r "data" with
      | some v => if v.truthy then qwenBranchData dec v else .ok (none, none)
      | none => .ok (none, none)

/-- The parse phase of the qwen 200-handler (`qwen-image-plus.py` lines
152-199): the `if "images" ... elif "output" ... elif "data"` chain over
the decoded body, producing `(image_data, image_url)`. Non-dict bodies
skip every branch. -/
def qwenParsePhase (dec : String → Option Bytes) (r : Json) :
    Except Unit (Option Bytes × Option Json) :=
  match Json.lookup r "images" with
  | some v =>
      if v.truthy then do
        let x ← pyIndex0 v
        match x with
        | .str s => pure (dec s, none)
        | _ => pure (none, none)
      else qwenAfterImages dec r
  | none => qwenAfterImages dec r

/-- The download step shared by qwen (`qwen-image-plus.py` lines 201-213)
and the wan extractor (`wan2.5-t2i-preview.py` lines 221-232): when
`image_url` is truthy, `requests.get` it inside a `try`; only a
status-200 download replaces `image_data`. A truthy non-string url makes
`requests.get` raise, which the `except` swallows. -/
def fetchPhase (fetchEv : String → FetchRes) :
    Option Bytes × Option Json → P200
  | (dta, urlv) =>
      match urlv with
      | some u =>
          if u.truthy then
            match u with
            | .str s =>
                match fetchEv s with
                | .ok 200 c => { imageData := some c, fetched := [s] }
                | .ok _ _ => { imageData := dta, fetched := [s] }
                | .exc => { imageData := dta, fetched := [s] }
            | _ => { imageData := dta, fetched := [] }
          else { imageData := dta, fetched := [] }
      | none => { imageData := dta, fetched := [] }

/-- The full qwen 200-response handler: parse phase then download step.
An `Except.error` is an exception escaping to `generate_image`'s generic
`except`, which turns the attempt into a retried failure. -/
def qwenProcess200 (dec : String → Option Bytes) (fetchEv : String → FetchRes)
    (r : Json) : Except Unit P200 :=
  (qwenParsePhase dec r).map (fetchPhase fetchEv)

/-- The seedream `elif "data" in result and result["data"]:` branch
(`seedream3.0&4.0.py` lines 118-123). -/
def seedreamDataBranch (dec : String → Option Bytes)
    (fetchEv : String → FetchRes) (r : Json) : Except Unit P200 :=
  match Json.lookup r "data" with
  | some v =>
      if v.truthy then do
        let item ← pyIndex0 v
        let hasB ← pyContains "b64_json" item
        if hasB then do
          let bv ← pySubscript item "b64_json"
          match bv with
          | .str s =>
              match dec s with
              | some b => pure { imageData := some b, fetched := [] }
              | none => throw ()
          | _ => throw ()
        else do
          let hasU ← pyContains "url" item
          if hasU then do
            let uv ← pySubscript item "url"
            match uv with
            | .str s =>
                match fetchEv s with
                | .ok _ c => pure { imageData := some c, fetched := [s] }
                | .exc => throw ()
            | _ => throw ()
          else pure { imageData := none, fetched := [] }
      else .ok { imageData := none, fetched := [] }
  | none => .ok { imageData := none, fetched := [] }

/-- The seedream 200-response handler (`seedream3.0&4.0.py` lines
105-140): only the `images` and `data` shapes are inspected, `b64_json`
before `url`; the base64 decode and the download are not wrapped in a
local `try`, so their failures raise out of the handler; the download's
status code is never checked. -/
def seedreamProcess200 (dec : String → Option Bytes)
    (fetchEv : String → FetchRes) (r : Json) : Except Unit P200 :=
  match Json.lookup r "images" with
  | some v =>
      if v.truthy then do
        let x ← pyIndex0 v
        match x with
        | .str s =>
            match dec s with
            | some b => pure { imageData := some b, fetched := [] }
            | none => throw ()
        | _ => throw ()
      else seedreamDataBranch dec fetchEv r
  | none => seedreamDataBranch dec fetchEv r

/-! ## Spec-side response parsing

Modelled from the spec's words for claim C4: "the response body is
inspected in a fixed order of precedence — (a) an inline base64-encoded
image list under `images`, (b) a nested output/choices/message/content
structure holding either an HTTP image URL or base64 data, (c) a generic
`data` list with `url` or `b64_json` entries — the first matching shape
wins, and whenever a URL is found a second network fetch retrieves the
bytes." Each recognised shape yields either base64 text or a URL; an
ordered parser list is tried first-match-wins. -/

/-- What a recognised shape extracted: base64 text to decode, or a URL to
download. -/
inductive Extracted where
  | b64 (s : String)
  | url (u : String)
  deriving Repr, DecidableEq

/-- Spec shape (a): an inline base64-encoded image list under `images`. -/
def parserA (r : Json) : Option Extracted :=
  match Json.lookup r "images" with
  | some (.arr (.str s :: _)) => some (.b64 s)
  | _ => none

/-- Spec shape (b): the nested `output.choices[0].message.content[0].image`
structure holding an HTTP image URL or base64 data. -/
def parserB (r : Json) : Option Extracted :=
  match Json.lookup r "output" with
  | none => none
  | some out =>
      match Json.lookup out "choices" with
      | some (.arr (choice :: _)) =>
          match Json.lookup choice "message" with
          | none => none
          | some message =>
              match Json.lookup message "content" with
              | some (.arr (content :: _)) =>
                  match Json.lookup content "image" with
                  | some (.str s) =>
                      some (if pyStartsWith s "http" then .url s else .b64 s)
                  | _ => none
              | _ => none
      | _ => none

/-- Spec shape (c): a generic `data` list whose first entry carries a
`url` or a `b64_json` string. -/
def parserC (r : Json) : Option Extracted :=
  match Json.lookup r "data" with
  | some (.arr (item :: _)) =>
      match Json.lookup item "url" with
      | some (.str u) => some (.url u)
      | _ =>
          match Json.lookup item "b64_json" with
          | some (.str s) => some (.b64 s)
          | _ => none
  | _ => none

/-- Spec shape (c) with the seedream adapter's internal precedence:
`b64_json` inspected before `url`. -/
def parserCSeedream (r : Json) : Option Extracted :=
  match Json.lookup r "data" with
  | some (.arr (item :: _)) =>
      match Json.lookup item "b64_json" with
      | some (.str s) => some (.b64 s)
      | _ =>
          match Json.lookup item "url" with
          | some (.str u) => some (.url u)
          | _ => none
  | _ => none

/-- First matching shape wins. -/
def firstMatch : List (Json → Option Extracted) → Json → Option Extracted
  | [], _ => none
  | p :: ps, r =>
      match p r with
      | some e => some e
      | none => firstMatch ps r

/-- The spec's ordered-parser pipeline: run the recognisers in order, then
decode base64 inline or download a found URL (keeping only a status-200
download). -/
def specProcessWith (parsers : List (Json → Option Extracted))
    (dec : String → Option Bytes) (fetchEv : String → FetchRes) (r : Json) :
    P200 :=
  match firstMatch parsers r with
  | some (.b64 s) => { imageData := dec s, fetched := [] }
  | some (.url u) =>
      match fetchEv u with
      | .ok 200 c => { imageData := some c, fetched := [u] }
      | _ => { imageData := none, fetched := [u] }
  | none => { imageData := none, fetched := [] }

/-- The spec's reading of the qwen synchronous adapter: shapes (a), (b),
(c) in order. -/
def specProcessQwen (dec : String → Option Bytes)
    (fetchEv : String → FetchRes) (r : Json) : P200 :=
  specProcessWith [parserA, parserB, parserC] dec fetchEv r

/-- The spec's ordered pipeline restricted to the shapes the seedream
adapter recognises: (a) then (c), with `b64_json` before `url`. -/
def specProcessSeedream (dec : String → Option Bytes)
    (fetchEv : String → FetchRes) (r : Json) : P200 :=
  specProcessWith [parserA, parserCSeedream] dec fetchEv r

/-! ## Well-shaped response bodies

The equivalence between the handlers and the spec's ordered parsers is
stated for bodies whose present top-level keys carry fully-formed shapes
of the documented types; outside this set the handlers dispatch on bare
key presence and can also raise (see the C4 counterexample). -/

/-- The `images` key, when present, holds a list of strings. -/
def wtImages : Option Json → Bool
  | none => true
  | some (.arr xs) => xs.all (fun x => match x with | .str _ => true | _ => false)
  | some _ => false

/-- The `data` key, when present, holds a list whose first entry (if any)
is a dict whose `url` value (if any) is a string. -/
def wtData : Option Json → Bool
  | none => true
  | some (.arr []) => true
  | some (.arr (item :: _)) =>
      (match item with | .obj _ => true | _ => false) &&
      (match Json.lookup item "url" with
       | none => true
       | some (.str _) => true
       | some _ => false)
  | some _ => false

/-- The `data` key as the seedream handler reads it: first entry a dict;
its `b64_json` value, if present, a string; otherwise its `url` value, if
present, a string. -/
def wtDataSeedream : Option Json → Bool
  | none => true
  | some (.arr []) => true
  | some (.arr (item :: _)) =>
      (match item with | .obj _ => true | _ => false) &&
      (match Json.lookup item "b64_json" with
       | some (.str _) => true
       | some _ => false
       | none =>
           match Json.lookup item "url" with
           | none => true
           | some (.str _) => true
           | some _ => false)
  | some _ => false

/-- Well-shaped for the qwen handler: `images` a string list when present;
when `output` is present the full nested shape (b) is present; `data`
well-formed when present. -/
def wtQwen (r : Json) : Bool :=
  match r with
  | .obj _ =>
      wtImages (Json.lookup r "images") &&
      ((Json.lookup r "output").isNone || (parserB r).isSome) &&
      wtData (Json.lookup r "data")
  | _ => true

/-- Well-shaped for the seedream handler. -/
def wtSeedream (r : Json) : Bool :=
  match r with
  | .obj _ =>
      wtImages (Json.lookup r "images") &&
      wtDataSeedream (Json.lookup r "data")
  | _ => true

/-! ## Retry Wrapper: `generate_image`

`qwen-image-plus.py` lines 108-268 and `seedream3.0&4.0.py` lines 73-162:
a `for attempt in range(retry_count)` loop around one `requests.post`.
The network is an environment `env : attempt ↦ HttpEvent`. -/

/-- What one submission attempt observes: a decoded HTTP response, a 200
response whose body fails JSON decoding, a `requests` timeout, or any
other exception raised during the attempt. -/
inductive HttpEvent where
  | resp (status : Nat) (body : Json)
  | jsonError
  | timeout
  | exc
  deriving Repr

/-- The observable run of one `generate_image` call: whether a filepath
was returned, how many `requests.post` submissions were made, the
`time.sleep` durations in order, and how many image downloads were
attempted. -/
structure GenResult where
  ok : Bool
  posts : Nat
  sleeps : List Nat
  fetches : Nat
  deriving Repr, DecidableEq

/-- Prepend one attempt's post, sleeps and fetches to the rest of the
run. -/
def addStep (slp : List Nat) (fet : Nat) (r : GenResult) : GenResult :=
  ⟨r.ok, 1 + r.posts, slp ++ r.sleeps, fet + r.fetches⟩

/-- The qwen retry loop (`qwen-image-plus.py` lines 130-265), one step per
`attempt`; `rem` is the number of loop iterations left including this
one, so `attempt < retry_count - 1` (the bottom backoff guard) is
`0 < rem - 1`. Status 429 sleeps `(attempt+1)*10` and `continue`s past
the bottom backoff; 401 and 400 `break`; any other failure falls to the
bottom `2 ** attempt` backoff. -/
def qwenGo (dec : String → Option Bytes) (fetchEv : String → FetchRes)
    (imgOk : Bytes → Bool) (env : Nat → HttpEvent) :
    Nat → Nat → GenResult
  | _, 0 => ⟨false, 0, [], 0⟩
  | attempt, rem + 1 =>
      match env attempt with
      | .resp status body =>
          if status = 200 then
            match qwenProcess200 dec fetchEv body with
            | .error _ =>
                addStep (if 0 < rem then [2 ^ attempt] else []) 0
                  (qwenGo dec fetchEv imgOk env (attempt + 1) rem)
            | .ok p =>
                match p.imageData with
                | some b =>
                    if imgOk b then ⟨true, 1, [], p.fetched.length⟩
                    else
                      addStep (if 0 < rem then [2 ^ attempt] else []) p.fetched.length
                        (qwenGo dec fetchEv imgOk env (attempt + 1) rem)
                | none =>
                    addStep (if 0 < rem then [2 ^ attempt] else []) p.fetched.length
                      (qwenGo dec fetchEv imgOk env (attempt + 1) rem)
          else if status = 429 then
            addStep [(attempt + 1) * 10] 0
              (qwenGo dec fetchEv imgOk env (attempt + 1) rem)
          else if status = 401 then ⟨false, 1, [], 0⟩
          else if status = 400 then ⟨false, 1, [], 0⟩
          else
            addStep (if 0 < rem then [2 ^ attempt] else []) 0
              (qwenGo dec fetchEv imgOk env (attempt + 1) rem)
      | _ =>
          addStep (if 0 < rem then [2 ^ attempt] else []) 0
            (qwenGo dec fetchEv imgOk env (attempt + 1) rem)

/-- `SimpleImageGenerator.generate_image` of `qwen-image-plus.py`: run the
retry loop from attempt 0. -/
def qwenGenerate (dec : String → Option Bytes) (fetchEv : String → FetchRes)
    (imgOk : Bytes → Bool) (env : Nat → HttpEvent) (retry_count : Nat) :
    GenResult :=
  qwenGo dec fetchEv imgOk env 0 retry_count

/-- The seedream retry loop (`seedream3.0&4.0.py` lines 88-162): like
qwen's but with no 401/400 branches — any status other than 200 and 429
falls to the bottom backoff and is retried. -/
def seedreamGo (dec : String → Option Bytes) (fetchEv : String → FetchRes)
    (imgOk : Bytes → Bool) (env : Nat → HttpEvent) :
    Nat → Nat → GenResult
  | _, 0 => ⟨false, 0, [], 0⟩
  | attempt, rem + 1 =>
      match env attempt with
      | .resp status body =>
          if status = 200 then
            match seedreamProcess200 dec fetchEv body with
            | .error _ =>
                addStep (if 0 < rem then [2 ^ attempt] else []) 0
                  (seedreamGo dec fetchEv imgOk env (attempt + 1) rem)
            | .ok p =>
                match p.imageData with
                | some b =>
                    if imgOk b then ⟨true, 1, [], p.fetched.length⟩
                    else
                      addStep (if 0 < rem then [2 ^ attempt] else []) p.fetched.length
                        (seedreamGo dec fetchEv imgOk env (attempt + 1) rem)
                | none =>
                    addStep (if 0 < rem then [2 ^ attempt] else []) p.fetched.length
                      (seedreamGo dec fetchEv imgOk env (attempt + 1) rem)
          else if status = 429 then
            addStep [(attempt + 1) * 10] 0
              (seedreamGo dec fetchEv imgOk env (attempt + 1) rem)
          else
            addStep (if 0 < rem then [2 ^ attempt] else []) 0
              (seedreamGo dec fetchEv imgOk env (attempt + 1) rem)
      | _ =>
          addStep (if 0 < rem then [2 ^ attempt] else []) 0
            (seedreamGo dec fetchEv imgOk env (attempt + 1) rem)

/-- `SimpleImageGenerator.generate_image` of `seedream3.0&4.0.py`. -/
def seedreamGenerate (dec : String → Option Bytes)
    (fetchEv : String → FetchRes) (imgOk : Bytes → Bool)
    (env : Nat → HttpEvent) (retry_count : Nat) : GenResult :=
  seedreamGo dec fetchEv imgOk env 0 retry_count

/-! ## Asynchronous adapter: `wan2.5-t2i-preview.py`

Task submission (`create_async_task`, lines 78-123), the status polling
loop (`get_task_result`, lines 125-181), result extraction
(`extract_image_from_result`, lines 183-238) and the driver
(`generate_image`, lines 240-291). -/

/-- `SimpleImageGenerator.create_async_task`: one `requests.post`; on 200
return `result["output"]["task_id"]` when both keys are present; every
failure (non-200, missing keys, any exception) returns `None`. -/
def create_async_task (ev : HttpEvent) : Option Json :=
  match ev with
  | .resp status body =>
      if status = 200 then
        match (do
          let h ← pyContains "output" body
          if h then do
            let out ← pySubscript body "output"
            let h2 ← pyContains "task_id" out
            if h2 then do
              let tid ← pySubscript out "task_id"
              pure (some tid)
            else pure none
          else pure none : Except Unit (Option Json)) with
        | .ok t => t
        | .error _ => none
      else none
  | _ => none

/-- What one status query of `get_task_result` decides. -/
inductive PollStep where
  | succeeded (body : Json)
  | failed (reason : Option Json)
  | again
  deriving Repr

/-- One iteration of the polling loop (`wan2.5-t2i-preview.py` lines
131-178): a 200 body whose `output.task_status` is `SUCCEEDED` returns the
body; `FAILED` prints `output["message"]` when present and returns `None`;
`RUNNING`, unknown statuses, missing `output`, non-200 statuses and any
exception all sleep `retry_interval` and poll again. -/
def pollOnce (ev : HttpEvent) : PollStep :=
  match ev with
  | .resp status body =>
      if status = 200 then
        match (do
          let h ← pyContains "output" body
          if h then do
            let out ← pySubscript body "output"
            let ts ← pyGetD out "task_status" (.str "UNKNOWN")
            if Json.beq ts (.str "SUCCEEDED") then pure (PollStep.succeeded body)
            else if Json.beq ts (.str "FAILED") then
              pure (PollStep.failed (Json.lookup out "message"))
            else pure PollStep.again
          else pure PollStep.again : Except Unit PollStep) with
        | .ok st => st
        | .error _ => .again
      else .again
  | _ => .again

/-- The observable run of one `get_task_result` call: the returned task
body if any, the number of status queries issued, and the vendor failure
reason the `FAILED` branch reported. -/
structure PollOut where
  result : Option Json
  queries : Nat
  failReason : Option Json
  deriving Repr

/-- The polling loop with `rem` iterations left; exhausting `max_retries`
returns `None` (poll timeout). -/
def getTaskGo (env : Nat → HttpEvent) : Nat → Nat → PollOut
  | _, 0 => ⟨none, 0, none⟩
  | attempt, rem + 1 =>
      match pollOnce (env attempt) with
      | .succeeded body => ⟨some body, 1, none⟩
      | .failed r => ⟨none, 1, r⟩
      | .again =>
          let p := getTaskGo env (attempt + 1) rem
          ⟨p.result, p.queries + 1, p.failReason⟩

/-- `SimpleImageGenerator.get_task_result` (default `max_retries=30`). -/
def get_task_result (env : Nat → HttpEvent) (max_retries : Nat) : PollOut :=
  getTaskGo env 0 max_retries

/-- The parse phase of `extract_image_from_result`
(`wan2.5-t2i-preview.py` lines 187-219): `output.results[0]` with `url`
before `image` (base64), else `output.image`; subscriptions outside the
inner `try` blocks raise to the outer handler. -/
def wanExtractParse (dec : String → Option Bytes) (r : Json) :
    Except Unit (Option Bytes × Option Json) := do
  let h ← pyContains "output" r
  if h then do
    let out ← pySubscript r "output"
    let resv ← (do
      let hr ← pyContains "results" out
      if hr then do
        let res ← pySubscript out "results"
        pure (if res.truthy then some res else none)
      else pure none : Except Unit (Option Json))
    match resv with
    | some res => do
        let n ← pyLen res
        if 0 < n then do
          let first ← pyIndex0 res
          let hu ← pyContains "url" first
          if hu then do
            let uv ← pySubscript first "url"
            pure (none, some uv)
          else do
            let hi ← pyContains "image" first
            if hi then
              pure ((match (do
                let iv ← pySubscript first "image"
                pure (pyDecArg dec iv) : Except Unit (Option Bytes)) with
                | .ok d => d
                | .error _ => none), none)
            else pure (none, none)
        else pure (none, none)
    | none => do
        let hi2 ← pyContains "image" out
        if hi2 then
          pure ((match (do
            let iv ← pySubscript out "image"
            pure (pyDecArg dec iv) : Except Unit (Option Bytes)) with
            | .ok d => d
            | .error _ => none), none)
        else pure (none, none)
  else pure (none, none)

/-- `SimpleImageGenerator.extract_image_from_result`: parse then the
shared download step; the whole body is wrapped in `try/except` returning
`None`. -/
def extract_image_from_result (dec : String → Option Bytes)
    (fetchEv : String → FetchRes) (r : Json) : P200 :=
  match wanExtractParse dec r with
  | .ok pr => fetchPhase fetchEv pr
  | .error _ => { imageData := none, fetched := [] }

/-- The observable run of one wan `generate_image` call. -/
structure WanResult where
  ok : Bool
  submissions : Nat
  queries : Nat
  extractions : Nat
  fetches : Nat
  deriving Repr, DecidableEq

/-- `SimpleImageGenerator.generate_image` of `wan2.5-t2i-preview.py`
(lines 240-291): submit once (no retry loop), poll with the defaults
(`max_retries=30`), then extract and validate; each stage's falsy result
aborts with `None`. -/
def wanGenerate (dec : String → Option Bytes) (fetchEv : String → FetchRes)
    (imgOk : Bytes → Bool) (sub : HttpEvent) (poll : Nat → HttpEvent) :
    WanResult :=
  match create_async_task sub with
  | none => ⟨false, 1, 0, 0, 0⟩
  | some tid =>
      if ¬ tid.truthy then ⟨false, 1, 0, 0, 0⟩
      else
        let pr := get_task_result poll 30
        match pr.result with
        | none => ⟨false, 1, pr.queries, 0, 0⟩
        | some body =>
            if ¬ body.truthy then ⟨false, 1, pr.queries, 0, 0⟩
            else
              let e := extract_image_from_result dec fetchEv body
              match e.imageData with
              | none => ⟨false, 1, pr.queries, 1, e.fetched.length⟩
              | some b => ⟨imgOk b, 1, pr.queries, 1, e.fetched.length⟩

/-! ## Per-script batch and Excel drivers -/

/-- `batch_generate` of `qwen-image-plus.py` (lines 270-300): per-row
generation is `generate_image` with the default `retry_count=3`; a row's
network calls are its posts plus its download attempts. -/
def qwenBatch (dec : String → Option Bytes) (fetchEv : String → FetchRes)
    (imgOk : Bytes → Bool) (envs : Nat → Nat → HttpEvent)
    (texts : List (Nat × String)) (delay : ℚ) : BatchResult :=
  batch_generate
    (fun i =>
      let r := qwenGenerate dec fetchEv imgOk (envs i) 3
      (r.ok, r.posts + r.fetches))
    texts delay

/-- `batch_generate` of `seedream3.0&4.0.py` (lines 164-185). -/
def seedreamBatch (dec : String → Option Bytes) (fetchEv : String → FetchRes)
    (imgOk : Bytes → Bool) (envs : Nat → Nat → HttpEvent)
    (texts : List (Nat × String)) (delay : ℚ) : BatchResult :=
  batch_generate
    (fun i =>
      let r := seedreamGenerate dec fetchEv imgOk (envs i) 3
      (r.ok, r.posts + r.fetches))
    texts delay

/-- `batch_generate` of `wan2.5-t2i-preview.py` (lines 293-319): one
submission, then polls, then at most one download per row. -/
def wanBatch (dec : String → Option Bytes) (fetchEv : String → FetchRes)
    (imgOk : Bytes → Bool) (subs : Nat → HttpEvent)
    (polls : Nat → Nat → HttpEvent) (texts : List (Nat × String))
    (delay : ℚ) : BatchResult :=
  batch_generate
    (fun i =>
      let r := wanGenerate dec fetchEv imgOk (subs i) (polls i)
      (r.ok, r.submissions + r.queries + r.fetches))
    texts delay

/-- The dict `generate_from_excel` returns on a non-empty batch. -/
structure Report where
  total : Nat
  success : Nat
  failed : Nat
  success_rows : List Nat
  failed_rows : List Nat
  deriving Repr, DecidableEq

/-- The observable run of one `generate_from_excel` call: the returned
report (`none` when the function fell through the `if not texts` early
return), whether `_generate_report` wrote the report file, and the number
of network calls issued. -/
structure ExcelRun where
  report : Option Report
  reportWritten : Bool
  networkCalls : Nat
  deriving Repr, DecidableEq

/-- `SimpleImageGenerator.generate_from_excel` of `qwen-image-plus.py`
(lines 302-332): read rows; when no valid text was found return `None`
before any generation; otherwise run the batch and write the report. -/
def qwenFromExcel (dec : String → Option Bytes) (fetchEv : String → FetchRes)
    (imgOk : Bytes → Bool) (envs : Nat → Nat → HttpEvent)
    (rows : List (List String)) (column_index : Nat) (has_header : Bool)
    (delay : ℚ) : ExcelRun :=
  let texts := read_texts_from_excel rows column_index has_header
  if texts.isEmpty then ⟨none, false, 0⟩
  else
    let b := qwenBatch dec fetchEv imgOk envs texts delay
    ⟨some ⟨texts.length, b.success_rows.length, b.failed_rows.length,
      b.success_rows, b.failed_rows⟩, true, b.calls⟩

/-- `SimpleImageGenerator.generate_from_excel` of `seedream3.0&4.0.py`
(lines 187-210). -/
def seedreamFromExcel (dec : String → Option Bytes)
    (fetchEv : String → FetchRes) (imgOk : Bytes → Bool)
    (envs : Nat → Nat → HttpEvent) (rows : List (List String))
    (column_index : Nat) (has_header : Bool) (delay : ℚ) : ExcelRun :=
  let texts := read_texts_from_excel rows column_index has_header
  if texts.isEmpty then ⟨none, false, 0⟩
  else
    let b := seedreamBatch dec fetchEv imgOk envs texts delay
    ⟨some ⟨texts.length, b.success_rows.length, b.failed_rows.length,
      b.success_rows, b.failed_rows⟩, true, b.calls⟩

/-- `SimpleImageGenerator.generate_from_excel` of
`wan2.5-t2i-preview.py` (lines 321-348). -/
def wanFromExcel (dec : String → Option Bytes) (fetchEv : String → FetchRes)
    (imgOk : Bytes → Bool) (subs : Nat → HttpEvent)
    (polls : Nat → Nat → HttpEvent) (rows : List (List String))
    (column_index : Nat) (has_header : Bool) (delay : ℚ) : ExcelRun :=
  let texts := read_texts_from_excel rows column_index has_header
  if texts.isEmpty then ⟨none, false, 0⟩
  else
    let b := wanBatch dec fetchEv imgOk subs polls texts delay
    ⟨some ⟨texts.length, b.success_rows.length, b.failed_rows.length,
      b.success_rows, b.failed_rows⟩, true, b.calls⟩

/-! ## Theorems -/

/-- Membership in the Row Source's output, characterised by source row
position: a pair is produced exactly by an in-range, kept cell, numbered
by its position. -/
theorem mem_readGo (ci start : Nat) :
    ∀ (rows : List (List String)) (i n : Nat) (s : String),
      (n, s) ∈ readGo ci start i rows ↔
      ∃ (j : Nat) (h : j < rows.length) (hc : ci < rows[j].length),
        n = i + j + start ∧ s = pyStrip (rows[j][ci]) ∧
        s ≠ "" ∧ pyLower s ≠ "nan" ∧ s ≠ "None"
  | [], i, n, s => by simp [readGo]
  | row :: rest, i, n, s => by
      rw [readGo, List.mem_append, mem_readGo ci start rest (i + 1) n s]
      constructor
      · rintro (hmem | ⟨j, h, hc, hn, hs, hkeep⟩)
        · by_cases hcl : ci < row.length
          · rw [dif_pos hcl] at hmem
            by_cases hk : pyStrip (row[ci]) ≠ "" ∧ pyLower (pyStrip (row[ci])) ≠ "nan" ∧
                pyStrip (row[ci]) ≠ "None"
            · rw [if_pos hk] at hmem
              simp only [List.mem_singleton, Prod.mk.injEq] at hmem
              obtain ⟨hn, hs⟩ := hmem
              refine ⟨0, by simp, by simpa using hcl, by omega,
                by simpa using hs, ?_⟩
              rw [hs]; exact hk
            · rw [if_neg hk] at hmem
              simp at hmem
          · rw [dif_neg hcl] at hmem
            simp at hmem
        · exact ⟨j + 1, by simpa using h, by simpa using hc, by omega,
            by simpa using hs, hkeep⟩
      · rintro ⟨j, h, hc, hn, hs, hkeep⟩
        cases j with
        | zero =>
            left
            have hcl : ci < row.length := by simpa using hc
            have hs0 : s = pyStrip (row[ci]) := by simpa using hs
            have hk : pyStrip (row[ci]) ≠ "" ∧ pyLower (pyStrip (row[ci])) ≠ "nan" ∧
                pyStrip (row[ci]) ≠ "None" := by rw [← hs0]; exact hkeep
            rw [dif_pos hcl, if_pos hk]
            simp only [List.mem_singleton, Prod.mk.injEq]
            exact ⟨by omega, hs0⟩
        | succ j =>
            right
            exact ⟨j, by simpa using h, by simpa using hc, by omega,
              by simpa using hs, hkeep⟩

/-- C7: a cell whose trimmed text is empty, `nan` case-insensitively or
`None` never appears in `read_texts_from_excel`'s output under its row
number; every other in-range cell appears (as its trimmed text). Identical
code in `qwen-image-plus.py`, `seedream3.0&4.0.py` and
`wan2.5-t2i-preview.py`. -/
theorem c7_skip_filter (rows : List (List String)) (ci : Nat) (hd : Bool)
    (idx : Nat) (h : idx < rows.length) (hc : ci < rows[idx].length) :
    (skipCell (pyStrip (rows[idx][ci])) →
        ∀ s, (idx + (if hd then 2 else 1), s) ∉
          read_texts_from_excel rows ci hd) ∧
    (¬ skipCell (pyStrip (rows[idx][ci])) →
        (idx + (if hd then 2 else 1), pyStrip (rows[idx][ci])) ∈
          read_texts_from_excel rows ci hd) := by
  constructor
  · intro hskip s hmem
    rw [read_texts_from_excel, mem_readGo] at hmem
    obtain ⟨j, hj, hcj, hn, hs, hkeep⟩ := hmem
    have hji : j = idx := by omega
    subst hji
    rw [hs] at hkeep
    rcases hskip with h1 | h1 | h1 <;> simp [h1] at hkeep
  · intro hkeep
    rw [read_texts_from_excel, mem_readGo]
    refine ⟨idx, h, hc, by omega, rfl, ?_⟩
    rw [skipCell, not_or, not_or] at hkeep
    exact ⟨hkeep.1, hkeep.2.1, hkeep.2.2⟩

/-- C7 witness: on a concrete sheet without header, the kept first cell
appears as row 1 and the `nan` cell of the second sheet row appears under
no text. -/
theorem c7_skip_filter_witness :
    ((1 : Nat), "x") ∈ read_texts_from_excel [["x"], [" nan "]] 0 false ∧
    ∀ s, ((2 : Nat), s) ∉ read_texts_from_excel [["x"], [" nan "]] 0 false := by
  constructor
  · have h2 := (c7_skip_filter [["x"], [" nan "]] 0 false 0 (by decide)
      (by decide)).2 (by decide)
    simpa using h2
  · intro s
    have h1 := (c7_skip_filter [["x"], [" nan "]] 0 false 1 (by decide)
      (by decide)).1 (by decide) s
    simpa using h1

/-- C8: every output pair's row number is its source row's 0-based
position plus 2 with a header and plus 1 without, so numbering starts at
2 (header) or 1 (no header) and follows source positions regardless of
skipped rows. -/
theorem c8_row_numbering (rows : List (List String)) (ci : Nat) (hd : Bool)
    (n : Nat) (s : String)
    (hmem : (n, s) ∈ read_texts_from_excel rows ci hd) :
    (if hd then 2 else 1) ≤ n ∧
    ∃ (idx : Nat) (h : idx < rows.length) (hc : ci < rows[idx].length),
      n = idx + (if hd then 2 else 1) ∧ s = pyStrip (rows[idx][ci]) := by
  rw [read_texts_from_excel, mem_readGo] at hmem
  obtain ⟨j, hj, hcj, hn, hs, _⟩ := hmem
  exact ⟨by omega, j, hj, hcj, by omega, hs⟩

/-- C8 witness: with a header and a skipped middle sheet row, the member
numbered 4 comes from 0-based position 2 (the third data row). -/
theorem c8_row_numbering_witness :
    (2 : Nat) ≤ 4 ∧
    ∃ (idx : Nat) (h : idx < ([["a"], [""], ["b"]] : List (List String)).length)
      (hc : 0 < (([["a"], [""], ["b"]] : List (List String))[idx]).length),
      4 = idx + 2 ∧
      "b" = pyStrip ((([["a"], [""], ["b"]] : List (List String))[idx])[0]) := by
  have hmem : ((4 : Nat), "b") ∈
      read_texts_from_excel [["a"], [""], ["b"]] 0 true := by decide
  have h := c8_row_numbering [["a"], [""], ["b"]] 0 true 4 "b" hmem
  simpa using h

/-- The inter-row sleep count of the batch loop in closed form. -/
theorem batchGo_delaySleeps (genRow : Nat → Bool × Nat) (delayOn : Bool) :
    ∀ (i : Nat) (texts : List (Nat × String)),
      (batchGo genRow delayOn i texts).delaySleeps =
        if delayOn then texts.length else 0
  | _, [] => by simp [batchGo]
  | i, t :: rest => by
      rw [batchGo]
      simp only [List.length_cons, batchGo_delaySleeps genRow delayOn (i + 1) rest]
      cases delayOn <;> simp +arith

/-- The inter-row sleep count of `batch_generate` in closed form: one
sleep per row when `delay > 0` and the batch has more than one row, no
sleeps otherwise. -/
theorem batch_generate_delaySleeps (genRow : Nat → Bool × Nat)
    (texts : List (Nat × String)) (delay : ℚ) :
    (batch_generate genRow texts delay).delaySleeps =
      if 0 < delay ∧ 1 < texts.length then texts.length else 0 := by
  rw [batch_generate, batchGo_delaySleeps]
  by_cases h1 : 0 < delay <;> by_cases h2 : 1 < texts.length <;>
    simp [h1, h2]

/-- C2 counterexample: the qwen batch driver on two rows with
`delay = 1` performs 2 inter-row sleeps, not `n - 1 = 1` — the sleep also
runs after the last row. -/
theorem c2_counterexample :
    (qwenBatch (fun _ => none) (fun _ => .exc) (fun _ => false)
        (fun _ _ => .timeout) [(1, "a"), (2, "b")] 1).delaySleeps = 2 ∧
    ¬ (qwenBatch (fun _ => none) (fun _ => .exc) (fun _ => false)
        (fun _ _ => .timeout) [(1, "a"), (2, "b")] 1).delaySleeps =
      [(1, "a"), (2, "b")].length - 1 := by
  constructor <;> decide

/-- C2 (amended): for `delay > 0` and at least two rows, `batch_generate`
sleeps after every row including the last — exactly `n` inter-row delay
sleeps for `n` rows, not `n - 1`; a single-row batch sleeps zero times
(`len(texts) > 1` fails). Stated for all three per-script drivers. -/
theorem c2_amended (dec : String → Option Bytes) (fetchEv : String → FetchRes)
    (imgOk : Bytes → Bool) (envs : Nat → Nat → HttpEvent)
    (subs : Nat → HttpEvent) (polls : Nat → Nat → HttpEvent)
    (texts : List (Nat × String)) (delay : ℚ) (hdelay : 0 < delay)
    (hlen : 1 < texts.length) :
    (qwenBatch dec fetchEv imgOk envs texts delay).delaySleeps = texts.length ∧
    (seedreamBatch dec fetchEv imgOk envs texts delay).delaySleeps =
      texts.length ∧
    (wanBatch dec fetchEv imgOk subs polls texts delay).delaySleeps =
      texts.length := by
  refine ⟨?_, ?_, ?_⟩ <;>
    simp [qwenBatch, seedreamBatch, wanBatch, batch_generate_delaySleeps,
      hdelay, hlen]

/-- C2 amended witness: two rows, `delay = 1`, two sleeps in each
driver. -/
theorem c2_amended_witness :
    (qwenBatch (fun _ => none) (fun _ => .exc) (fun _ => false)
        (fun _ _ => .timeout) [(3, "a"), (4, "b")] 1).delaySleeps = 2 ∧
    (seedreamBatch (fun _ => none) (fun _ => .exc) (fun _ => false)
        (fun _ _ => .timeout) [(3, "a"), (4, "b")] 1).delaySleeps = 2 ∧
    (wanBatch (fun _ => none) (fun _ => .exc) (fun _ => false)
        (fun _ => .timeout) (fun _ _ => .timeout) [(3, "a"), (4, "b")]
        1).delaySleeps = 2 :=
  c2_amended (fun _ => none) (fun _ => .exc) (fun _ => false)
    (fun _ _ => .timeout) (fun _ => .timeout) (fun _ _ => .timeout)
    [(3, "a"), (4, "b")] 1 (by norm_num) (by norm_num)

/-- C10: a single-row batch performs no inter-row delay sleep even for
positive delay, and a batch of two or more rows with positive delay
sleeps after every row including the last (count equals the row count).
Stated for all three per-script drivers. -/
theorem c10_delay_sleep_shape :
    (∀ (dec : String → Option Bytes) (fetchEv : String → FetchRes)
        (imgOk : Bytes → Bool) (envs : Nat → Nat → HttpEvent)
        (subs : Nat → HttpEvent) (polls : Nat → Nat → HttpEvent)
        (rn : Nat) (t : String) (delay : ℚ),
        (qwenBatch dec fetchEv imgOk envs [(rn, t)] delay).delaySleeps = 0 ∧
        (seedreamBatch dec fetchEv imgOk envs [(rn, t)] delay).delaySleeps = 0 ∧
        (wanBatch dec fetchEv imgOk subs polls [(rn, t)] delay).delaySleeps
          = 0) ∧
    (∀ (dec : String → Option Bytes) (fetchEv : String → FetchRes)
        (imgOk : Bytes → Bool) (envs : Nat → Nat → HttpEvent)
        (subs : Nat → HttpEvent) (polls : Nat → Nat → HttpEvent)
        (texts : List (Nat × String)) (delay : ℚ),
        0 < delay → 2 ≤ texts.length →
        (qwenBatch dec fetchEv imgOk envs texts delay).delaySleeps =
          texts.length ∧
        (seedreamBatch dec fetchEv imgOk envs texts delay).delaySleeps =
          texts.length ∧
        (wanBatch dec fetchEv imgOk subs polls texts delay).delaySleeps =
          texts.length) := by
  constructor
  · intro dec fetchEv imgOk envs subs polls rn t delay
    refine ⟨?_, ?_, ?_⟩ <;>
      simp [qwenBatch, seedreamBatch, wanBatch, batch_generate_delaySleeps]
  · intro dec fetchEv imgOk envs subs polls texts delay hdelay hlen
    have hlen2 : 1 < texts.length := by omega
    refine ⟨?_, ?_, ?_⟩ <;>
      simp [qwenBatch, seedreamBatch, wanBatch, batch_generate_delaySleeps,
        hdelay, hlen2]

/-- C10 witness: a one-row batch with `delay = 5` sleeps zero times; a
three-row batch with `delay = 5` sleeps three times. -/
theorem c10_delay_sleep_shape_witness :
    (qwenBatch (fun _ => none) (fun _ => .exc) (fun _ => false)
        (fun _ _ => .timeout) [(1, "a")] 5).delaySleeps = 0 ∧
    (qwenBatch (fun _ => none) (fun _ => .exc) (fun _ => false)
        (fun _ _ => .timeout) [(1, "a"), (2, "b"), (3, "c")] 5).delaySleeps
      = 3 :=
  ⟨(c10_delay_sleep_shape.1 (fun _ => none) (fun _ => .exc) (fun _ => false)
      (fun _ _ => .timeout) (fun _ => .timeout) (fun _ _ => .timeout)
      1 "a" 5).1,
   (c10_delay_sleep_shape.2 (fun _ => none) (fun _ => .exc) (fun _ => false)
      (fun _ _ => .timeout) (fun _ => .timeout) (fun _ _ => .timeout)
      [(1, "a"), (2, "b"), (3, "c")] 5 (by norm_num) (by norm_num)).1⟩

/-- C1 counterexample: the seedream `generate_image` has no 401 branch —
on persistent 401 responses it makes 3 submission attempts (retrying with
the `2 ** attempt` backoff), not exactly one. -/
theorem c1_counterexample :
    (seedreamGenerate (fun _ => none) (fun _ => .exc) (fun _ => false)
        (fun _ => .resp 401 .null) 3).posts = 3 ∧
    (seedreamGenerate (fun _ => none) (fun _ => .exc) (fun _ => false)
        (fun _ => .resp 401 .null) 3).sleeps = [1, 2] ∧
    ¬ (seedreamGenerate (fun _ => none) (fun _ => .exc) (fun _ => false)
        (fun _ => .resp 401 .null) 3).posts = 1 := by
  refine ⟨?_, ?_, ?_⟩ <;> decide

/-- C1 (amended): on persistent 401 responses the qwen `generate_image`
breaks after exactly one submission and returns `None` without sleeping,
and the wan adapter makes exactly one submission (its submission path has
no retry loop); the seedream `generate_image`, which has no 401 branch,
instead treats 401 like an unknown error and retries, making
`retry_count = 3` submissions before returning `None`. -/
theorem c1_amended :
    (∀ (dec : String → Option Bytes) (fetchEv : String → FetchRes)
        (imgOk : Bytes → Bool) (env : Nat → HttpEvent),
        (∀ i, ∃ b, env i = .resp 401 b) →
        qwenGenerate dec fetchEv imgOk env 3 = ⟨false, 1, [], 0⟩) ∧
    (∀ (dec : String → Option Bytes) (fetchEv : String → FetchRes)
        (imgOk : Bytes → Bool) (env : Nat → HttpEvent),
        (∀ i, ∃ b, env i = .resp 401 b) →
        (seedreamGenerate dec fetchEv imgOk env 3).ok = false ∧
        (seedreamGenerate dec fetchEv imgOk env 3).posts = 3) ∧
    (∀ (dec : String → Option Bytes) (fetchEv : String → FetchRes)
        (imgOk : Bytes → Bool) (sub : HttpEvent) (poll : Nat → HttpEvent),
        (∃ b, sub = .resp 401 b) →
        wanGenerate dec fetchEv imgOk sub poll = ⟨false, 1, 0, 0, 0⟩) := by
  refine ⟨?_, ?_, ?_⟩
  · intro dec fetchEv imgOk env h
    obtain ⟨b0, h0⟩ := h 0
    simp [qwenGenerate, qwenGo, h0]
  · intro dec fetchEv imgOk env h
    obtain ⟨b0, h0⟩ := h 0
    obtain ⟨b1, h1⟩ := h 1
    obtain ⟨b2, h2⟩ := h 2
    constructor <;>
      simp [seedreamGenerate, seedreamGo, h0, h1, h2, addStep]
  · intro dec fetchEv imgOk sub poll h
    obtain ⟨b, hb⟩ := h
    simp [wanGenerate, create_async_task, hb]

/-- C1 amended witness: the three adapters on the constant-401
environment. -/
theorem c1_amended_witness :
    qwenGenerate (fun _ => none) (fun _ => .exc) (fun _ => false)
      (fun _ => .resp 401 .null) 3 = ⟨false, 1, [], 0⟩ ∧
    (seedreamGenerate (fun _ => none) (fun _ => .exc) (fun _ => false)
      (fun _ => .resp 401 .null) 3).ok = false ∧
    (seedreamGenerate (fun _ => none) (fun _ => .exc) (fun _ => false)
      (fun _ => .resp 401 .null) 3).posts = 3 ∧
    wanGenerate (fun _ => none) (fun _ => .exc) (fun _ => false)
      (.resp 401 .null) (fun _ => .timeout) = ⟨false, 1, 0, 0, 0⟩ :=
  ⟨c1_amended.1 (fun _ => none) (fun _ => .exc) (fun _ => false)
      (fun _ => .resp 401 .null) (fun _ => ⟨.null, rfl⟩),
   (c1_amended.2.1 (fun _ => none) (fun _ => .exc) (fun _ => false)
      (fun _ => .resp 401 .null) (fun _ => ⟨.null, rfl⟩)).1,
   (c1_amended.2.1 (fun _ => none) (fun _ => .exc) (fun _ => false)
      (fun _ => .resp 401 .null) (fun _ => ⟨.null, rfl⟩)).2,
   c1_amended.2.2 (fun _ => none) (fun _ => .exc) (fun _ => false)
      (.resp 401 .null) (fun _ => .timeout) ⟨.null, rfl⟩⟩

/-- C5: when every one of the three attempts fails with a timeout — or,
more generally, with a timeout, a JSON-decode failure or any other
in-attempt exception — `generate_image` with `retry_count = 3` makes
exactly 3 submissions and returns the failure value `None`; the
exception is consumed inside the loop (the run is a value, nothing
escapes), for both the qwen and seedream adapters. -/
theorem c5_timeout_exhaustion :
    (∀ (dec : String → Option Bytes) (fetchEv : String → FetchRes)
        (imgOk : Bytes → Bool) (env : Nat → HttpEvent),
        (∀ i, i < 3 → env i = .timeout ∨ env i = .jsonError ∨ env i = .exc) →
        (qwenGenerate dec fetchEv imgOk env 3).ok = false ∧
        (qwenGenerate dec fetchEv imgOk env 3).posts = 3) ∧
    (∀ (dec : String → Option Bytes) (fetchEv : String → FetchRes)
        (imgOk : Bytes → Bool) (env : Nat → HttpEvent),
        (∀ i, i < 3 → env i = .timeout ∨ env i = .jsonError ∨ env i = .exc) →
        (seedreamGenerate dec fetchEv imgOk env 3).ok = false ∧
        (seedreamGenerate dec fetchEv imgOk env 3).posts = 3) := by
  constructor
  · intro dec fetchEv imgOk env h
    rcases h 0 (by norm_num) with h0 | h0 | h0 <;>
      rcases h 1 (by norm_num) with h1 | h1 | h1 <;>
        rcases h 2 (by norm_num) with h2 | h2 | h2 <;>
          constructor <;>
            simp [qwenGenerate, qwenGo, h0, h1, h2, addStep]
  · intro dec fetchEv imgOk env h
    rcases h 0 (by norm_num) with h0 | h0 | h0 <;>
      rcases h 1 (by norm_num) with h1 | h1 | h1 <;>
        rcases h 2 (by norm_num) with h2 | h2 | h2 <;>
          constructor <;>
            simp [seedreamGenerate, seedreamGo, h0, h1, h2, addStep]

/-- C5 witness: the all-timeout environment for both adapters. -/
theorem c5_timeout_exhaustion_witness :
    (qwenGenerate (fun _ => none) (fun _ => .exc) (fun _ => false)
      (fun _ => .timeout) 3).ok = false ∧
    (qwenGenerate (fun _ => none) (fun _ => .exc) (fun _ => false)
      (fun _ => .timeout) 3).posts = 3 ∧
    (seedreamGenerate (fun _ => none) (fun _ => .exc) (fun _ => false)
      (fun _ => .timeout) 3).ok = false ∧
    (seedreamGenerate (fun _ => none) (fun _ => .exc) (fun _ => false)
      (fun _ => .timeout) 3).posts = 3 :=
  ⟨(c5_timeout_exhaustion.1 (fun _ => none) (fun _ => .exc) (fun _ => false)
      (fun _ => .timeout) (fun _ _ => Or.inl rfl)).1,
   (c5_timeout_exhaustion.1 (fun _ => none) (fun _ => .exc) (fun _ => false)
      (fun _ => .timeout) (fun _ _ => Or.inl rfl)).2,
   (c5_timeout_exhaustion.2 (fun _ => none) (fun _ => .exc) (fun _ => false)
      (fun _ => .timeout) (fun _ _ => Or.inl rfl)).1,
   (c5_timeout_exhaustion.2 (fun _ => none) (fun _ => .exc) (fun _ => false)
      (fun _ => .timeout) (fun _ _ => Or.inl rfl)).2⟩

/-- C6: when the first two attempts are rate-limited (429) and the third
returns a 200 body from which a valid image is obtained,
`generate_image` with `retry_count = 3` makes exactly three submissions,
returns success, and the waits are `10 * (attempt + 1)` — 10s then 20s —
not the `2 ** attempt` backoff; for both the qwen and seedream
adapters. -/
theorem c6_rate_limited_then_success :
    (∀ (dec : String → Option Bytes) (fetchEv : String → FetchRes)
        (imgOk : Bytes → Bool) (env : Nat → HttpEvent) (b0 b1 : Json)
        (body : Json) (p : P200) (b : Bytes),
        env 0 = .resp 429 b0 → env 1 = .resp 429 b1 →
        env 2 = .resp 200 body →
        qwenProcess200 dec fetchEv body = .ok p → p.imageData = some b →
        imgOk b = true →
        qwenGenerate dec fetchEv imgOk env 3 =
          ⟨true, 3, [10, 20], p.fetched.length⟩) ∧
    (∀ (dec : String → Option Bytes) (fetchEv : String → FetchRes)
        (imgOk : Bytes → Bool) (env : Nat → HttpEvent) (b0 b1 : Json)
        (body : Json) (p : P200) (b : Bytes),
        env 0 = .resp 429 b0 → env 1 = .resp 429 b1 →
        env 2 = .resp 200 body →
        seedreamProcess200 dec fetchEv body = .ok p → p.imageData = some b →
        imgOk b = true →
        seedreamGenerate dec fetchEv imgOk env 3 =
          ⟨true, 3, [10, 20], p.fetched.length⟩) := by
  constructor
  · intro dec fetchEv imgOk env b0 b1 body p b h0 h1 h2 hp himg hok
    simp [qwenGenerate, qwenGo, h0, h1, h2, hp, himg, hok, addStep]
  · intro dec fetchEv imgOk env b0 b1 body p b h0 h1 h2 hp himg hok
    simp [seedreamGenerate, seedreamGo, h0, h1, h2, hp, himg, hok, addStep]

/-- C6 witness: 429 twice then a 200 body with an inline base64 image,
for both adapters. -/
theorem c6_rate_limited_then_success_witness :
    qwenGenerate (fun _ => some [1]) (fun _ => .exc) (fun _ => true)
      (fun i => if i < 2 then .resp 429 .null
                else .resp 200 (.obj [("images", .arr [.str "QUJD"])])) 3 =
      ⟨true, 3, [10, 20], 0⟩ ∧
    seedreamGenerate (fun _ => some [1]) (fun _ => .exc) (fun _ => true)
      (fun i => if i < 2 then .resp 429 .null
                else .resp 200 (.obj [("images", .arr [.str "QUJD"])])) 3 =
      ⟨true, 3, [10, 20], 0⟩ :=
  ⟨c6_rate_limited_then_success.1 (fun _ => some [1]) (fun _ => .exc)
      (fun _ => true) _ .null .null (.obj [("images", .arr [.str "QUJD"])])
      ⟨some [1], []⟩ [1] rfl rfl rfl rfl rfl rfl,
   c6_rate_limited_then_success.2 (fun _ => some [1]) (fun _ => .exc)
      (fun _ => true) _ .null .null (.obj [("images", .arr [.str "QUJD"])])
      ⟨some [1], []⟩ [1] rfl rfl rfl rfl rfl rfl⟩

/-- C9: when the Row Source yields no valid text, `generate_from_excel`
returns `None` (no `BatchReport`), writes no report file, and issues no
network call — in all three scripts the `if not texts` guard returns
before `batch_generate` runs. -/
theorem c9_empty_rows_early_return
    (rows : List (List String)) (ci : Nat) (hd : Bool)
    (hempty : read_texts_from_excel rows ci hd = [])
    (dec : String → Option Bytes) (fetchEv : String → FetchRes)
    (imgOk : Bytes → Bool) (envs : Nat → Nat → HttpEvent)
    (subs : Nat → HttpEvent) (polls : Nat → Nat → HttpEvent) (delay : ℚ) :
    qwenFromExcel dec fetchEv imgOk envs rows ci hd delay =
      ⟨none, false, 0⟩ ∧
    seedreamFromExcel dec fetchEv imgOk envs rows ci hd delay =
      ⟨none, false, 0⟩ ∧
    wanFromExcel dec fetchEv imgOk subs polls rows ci hd delay =
      ⟨none, false, 0⟩ := by
  refine ⟨?_, ?_, ?_⟩ <;>
    simp [qwenFromExcel, seedreamFromExcel, wanFromExcel, hempty]

/-- C9 witness: a sheet whose only cell is the `nan` sentinel. -/
theorem c9_empty_rows_early_return_witness :
    qwenFromExcel (fun _ => none) (fun _ => .exc) (fun _ => false)
      (fun _ _ => .timeout) [[" nan "]] 0 false 2 = ⟨none, false, 0⟩ ∧
    seedreamFromExcel (fun _ => none) (fun _ => .exc) (fun _ => false)
      (fun _ _ => .timeout) [[" nan "]] 0 false 2 = ⟨none, false, 0⟩ ∧
    wanFromExcel (fun _ => none) (fun _ => .exc) (fun _ => false)
      (fun _ => .timeout) (fun _ _ => .timeout) [[" nan "]] 0 false 2 =
      ⟨none, false, 0⟩ :=
  c9_empty_rows_early_return [[" nan "]] 0 false (by decide)
    (fun _ => none) (fun _ => .exc) (fun _ => false) (fun _ _ => .timeout)
    (fun _ => .timeout) (fun _ _ => .timeout) 2

/-- A found key makes the Python `in` test on the dict true. -/
theorem lookFs_any {fs : List (String × Json)} {k : String} {v : Json}
    (h : lookFs fs k = some v) : fs.any (fun p => p.1 == k) = true := by
  induction fs with
  | nil => simp [lookFs] at h
  | cons p rest ih =>
      rw [lookFs] at h
      by_cases hk : p.1 = k
      · simp [List.any_cons, hk]
      · rw [if_neg hk] at h
        simp [List.any_cons, ih h]

/-- A dict holding a key is non-empty, hence truthy. -/
theorem truthy_of_lookFs {fs : List (String × Json)} {k : String} {v : Json}
    (h : lookFs fs k = some v) : (Json.obj fs).truthy = true := by
  cases fs with
  | nil => simp [lookFs] at h
  | cons p rest => simp [Json.truthy]

/-- What one poll decides on a 200 body whose `output.task_status` is the
string `st`. -/
theorem pollOnce_of_status (fields out : List (String × Json)) (st : String)
    (h1 : lookFs fields "output" = some (.obj out))
    (h2 : lookFs out "task_status" = some (.str st)) :
    pollOnce (.resp 200 (.obj fields)) =
      (if st = "SUCCEEDED" then .succeeded (.obj fields)
       else if st = "FAILED" then .failed (lookFs out "message")
       else .again) := by
  have hany := lookFs_any h1
  simp only [pollOnce, pyContains, pySubscript, pyGetD, h1, h2, hany,
    if_pos, Json.lookup]
  by_cases hs : st = "SUCCEEDED"
  · simp [hs, Bind.bind, Except.bind, h2, Json.beq, pure, Except.pure]
  · by_cases hf : st = "FAILED"
    · simp [hs, hf, Bind.bind, Except.bind, h2, Json.beq, pure, Except.pure]
    · simp [hs, hf, Bind.bind, Except.bind, h2, Json.beq, pure, Except.pure]

/-- The polling loop on a task that decides `again` for `N` polls and
succeeds on poll `N + 1` (all within the retry budget): exactly `N + 1`
status queries, then the success body is returned. -/
theorem getTaskGo_again_then_succ (env : Nat → HttpEvent) (body : Json) :
    ∀ (N attempt rem : Nat), N < rem →
      (∀ i, i < N → pollOnce (env (attempt + i)) = .again) →
      pollOnce (env (attempt + N)) = .succeeded body →
      getTaskGo env attempt rem = ⟨some body, N + 1, none⟩
  | 0, attempt, rem, hlt, _, hsucc => by
      obtain ⟨r, rfl⟩ : ∃ r, rem = r + 1 := ⟨rem - 1, by omega⟩
      rw [getTaskGo]
      rw [show attempt + 0 = attempt from rfl] at hsucc
      rw [hsucc]
  | N + 1, attempt, rem, hlt, hrun, hsucc => by
      obtain ⟨r, rfl⟩ : ∃ r, rem = r + 1 := ⟨rem - 1, by omega⟩
      rw [getTaskGo]
      have h0 : pollOnce (env attempt) = .again := by
        have h := hrun 0 (by omega)
        rwa [show attempt + 0 = attempt from rfl] at h
      have ih := getTaskGo_again_then_succ env body N (attempt + 1) r
        (by omega)
        (fun i hi => by
          have h := hrun (i + 1) (by omega)
          rwa [show attempt + (i + 1) = attempt + 1 + i by omega] at h)
        (by rwa [show attempt + (N + 1) = attempt + 1 + N by omega] at hsucc)
      rw [h0, ih]

/-- The claim's hypothesis vocabulary: the status endpoint's response is a
200 JSON body whose `output.task_status` equals `st`. -/
def reportsStatus (e : HttpEvent) (st : String) : Prop :=
  ∃ fields out, e = .resp 200 (.obj fields) ∧
    lookFs fields "output" = some (.obj out) ∧
    lookFs out "task_status" = some (.str st)

/-- A poll that reports `RUNNING` decides to sleep and poll again. -/
theorem pollOnce_running {e : HttpEvent}
    (h : reportsStatus e "RUNNING") : pollOnce e = .again := by
  obtain ⟨fields, out, rfl, h1, h2⟩ := h
  rw [pollOnce_of_status fields out _ h1 h2]
  simp

/-- C3: for the wan asynchronous adapter, a task reporting `RUNNING` for
its first `N` polls and `SUCCEEDED` on poll `N + 1` (with
`N < max_retries`) costs exactly `N + 1` status queries and returns the
success body; a task whose first poll reports `FAILED` costs exactly one
status query, aborts with `None` and surfaces the vendor's
`output.message` reason; and after a successful poll the driver performs
exactly one result extraction. -/
theorem c3_async_polling :
    (∀ (env : Nat → HttpEvent) (max_retries N : Nat),
        N < max_retries →
        (∀ i, i < N → reportsStatus (env i) "RUNNING") →
        reportsStatus (env N) "SUCCEEDED" →
        ∃ body, env N = .resp 200 body ∧
          get_task_result env max_retries = ⟨some body, N + 1, none⟩) ∧
    (∀ (env : Nat → HttpEvent) (max_retries : Nat)
        (fields out : List (String × Json)) (msg : Json),
        0 < max_retries →
        env 0 = .resp 200 (.obj fields) →
        lookFs fields "output" = some (.obj out) →
        lookFs out "task_status" = some (.str "FAILED") →
        lookFs out "message" = some msg →
        get_task_result env max_retries = ⟨none, 1, some msg⟩) ∧
    (∀ (dec : String → Option Bytes) (fetchEv : String → FetchRes)
        (imgOk : Bytes → Bool) (sub : HttpEvent) (env : Nat → HttpEvent)
        (N : Nat) (tid : Json),
        create_async_task sub = some tid → tid.truthy = true →
        N < 30 →
        (∀ i, i < N → reportsStatus (env i) "RUNNING") →
        reportsStatus (env N) "SUCCEEDED" →
        (wanGenerate dec fetchEv imgOk sub env).queries = N + 1 ∧
        (wanGenerate dec fetchEv imgOk sub env).extractions = 1) := by
  have main : ∀ (env : Nat → HttpEvent) (max_retries N : Nat),
      N < max_retries →
      (∀ i, i < N → reportsStatus (env i) "RUNNING") →
      reportsStatus (env N) "SUCCEEDED" →
      ∃ fields : List (String × Json), env N = .resp 200 (.obj fields) ∧
        (Json.obj fields).truthy = true ∧
        get_task_result env max_retries =
          ⟨some (.obj fields), N + 1, none⟩ := by
    intro env max_retries N hN hrun hsucc
    obtain ⟨fields, out, heq, h1, h2⟩ := hsucc
    refine ⟨fields, heq, truthy_of_lookFs h1, ?_⟩
    rw [get_task_result]
    refine getTaskGo_again_then_succ env (.obj fields) N 0 max_retries hN
      (fun i hi => by
        have h := pollOnce_running (hrun i hi)
        rwa [Nat.zero_add]) ?_
    rw [Nat.zero_add, heq, pollOnce_of_status fields out _ h1 h2]
    simp
  refine ⟨?_, ?_, ?_⟩
  · intro env max_retries N hN hrun hsucc
    obtain ⟨fields, heq, _, hres⟩ := main env max_retries N hN hrun hsucc
    exact ⟨.obj fields, heq, hres⟩
  · intro env max_retries fields out msg hpos h0 h1 h2 hmsg
    obtain ⟨r, rfl⟩ : ∃ r, max_retries = r + 1 := ⟨max_retries - 1, by omega⟩
    rw [get_task_result, getTaskGo, h0,
      pollOnce_of_status fields out _ h1 h2]
    simp [hmsg]
  · intro dec fetchEv imgOk sub env N tid hcreate htruthy hN hrun hsucc
    obtain ⟨fields, heq, htr, hres⟩ := main env 30 N hN hrun hsucc
    rw [wanGenerate, hcreate]
    simp only [htruthy, not_true, if_neg, ite_false, Bool.not_eq_true]
    rw [hres]
    simp only [htr]
    cases hx : (extract_image_from_result dec fetchEv (.obj fields)).imageData <;>
      simp [hx]

/-- C3 witness: a task running for 2 polls then succeeding (3 queries),
a task failing on its first poll (1 query, reason surfaced), and the
driver extracting once after the successful poll. -/
theorem c3_async_polling_witness :
    (∃ body,
      (fun i => if i < 2 then
          HttpEvent.resp 200 (.obj [("output", .obj [("task_status", .str "RUNNING")])])
        else
          HttpEvent.resp 200 (.obj [("output", .obj [("task_status", .str "SUCCEEDED")])])) 2 =
        .resp 200 body ∧
      get_task_result
        (fun i => if i < 2 then
          HttpEvent.resp 200 (.obj [("output", .obj [("task_status", .str "RUNNING")])])
        else
          HttpEvent.resp 200 (.obj [("output", .obj [("task_status", .str "SUCCEEDED")])]))
        30 = ⟨some body, 3, none⟩) ∧
    get_task_result
      (fun _ => HttpEvent.resp 200 (.obj [("output",
        .obj [("task_status", .str "FAILED"), ("message", .str "boom")])]))
      30 = ⟨none, 1, some (.str "boom")⟩ ∧
    (wanGenerate (fun _ => none) (fun _ => .exc) (fun _ => false)
      (.resp 200 (.obj [("output", .obj [("task_id", .str "t1")])]))
      (fun i => if i < 2 then
          HttpEvent.resp 200 (.obj [("output", .obj [("task_status", .str "RUNNING")])])
        else
          HttpEvent.resp 200 (.obj [("output", .obj [("task_status", .str "SUCCEEDED")])]))).queries = 3 ∧
    (wanGenerate (fun _ => none) (fun _ => .exc) (fun _ => false)
      (.resp 200 (.obj [("output", .obj [("task_id", .str "t1")])]))
      (fun i => if i < 2 then
          HttpEvent.resp 200 (.obj [("output", .obj [("task_status", .str "RUNNING")])])
        else
          HttpEvent.resp 200 (.obj [("output", .obj [("task_status", .str "SUCCEEDED")])]))).extractions = 1 := by
  have hrun : ∀ i, i < 2 → reportsStatus
      ((fun i => if i < 2 then
          HttpEvent.resp 200 (.obj [("output", .obj [("task_status", .str "RUNNING")])])
        else
          HttpEvent.resp 200 (.obj [("output", .obj [("task_status", .str "SUCCEEDED")])])) i)
      "RUNNING" := by
    intro i hi
    exact ⟨[("output", .obj [("task_status", .str "RUNNING")])],
      [("task_status", .str "RUNNING")], by simp [hi], rfl, rfl⟩
  have hsucc : reportsStatus
      ((fun i => if i < 2 then
          HttpEvent.resp 200 (.obj [("output", .obj [("task_status", .str "RUNNING")])])
        else
          HttpEvent.resp 200 (.obj [("output", .obj [("task_status", .str "SUCCEEDED")])])) 2)
      "SUCCEEDED" :=
    ⟨[("output", .obj [("task_status", .str "SUCCEEDED")])],
      [("task_status", .str "SUCCEEDED")], rfl, rfl, rfl⟩
  have hdrv := c3_async_polling.2.2 (fun _ => none) (fun _ => .exc)
    (fun _ => false)
    (.resp 200 (.obj [("output", .obj [("task_id", .str "t1")])])) _ 2
    (.str "t1") rfl rfl (by norm_num) hrun hsucc
  exact ⟨c3_async_polling.1 _ 30 2 (by norm_num) hrun hsucc,
    c3_async_polling.2.1 _ 30
      [("output", .obj [("task_status", .str "FAILED"), ("message", .str "boom")])]
      [("task_status", .str "FAILED"), ("message", .str "boom")] (.str "boom")
      (by norm_num) rfl rfl rfl rfl,
    hdrv.1, hdrv.2⟩

instance {ε α : Type} [DecidableEq ε] [DecidableEq α] :
    DecidableEq (Except ε α) := fun a b =>
  match a, b with
  | .ok x, .ok y =>
      if h : x = y then isTrue (by rw [h])
      else isFalse (fun hh => h (Except.ok.inj hh))
  | .error x, .error y =>
      if h : x = y then isTrue (by rw [h])
      else isFalse (fun hh => h (Except.error.inj hh))
  | .ok _, .error _ => isFalse (fun hh => Except.noConfusion hh)
  | .error _, .ok _ => isFalse (fun hh => Except.noConfusion hh)

/-- C4 counterexample: on a 200 body holding only the fully-formed nested
shape (b) with an HTTP image URL, the claimed ordered parse finds the URL
and downloads it, but the seedream synchronous adapter — one of the two
adapters the claim covers — extracts nothing and downloads nothing (its
handler never inspects shape (b)). -/
theorem c4_counterexample :
    seedreamProcess200 (fun _ => none) (fun _ => .ok 200 [9])
      (.obj [("output", .obj [("choices", .arr [.obj [("message",
        .obj [("content", .arr [.obj [("image",
          .str "http://img")]])])]])])]) = .ok ⟨none, []⟩ ∧
    specProcessQwen (fun _ => none) (fun _ => .ok 200 [9])
      (.obj [("output", .obj [("choices", .arr [.obj [("message",
        .obj [("content", .arr [.obj [("image",
          .str "http://img")]])])]])])]) = ⟨some [9], ["http://img"]⟩ ∧
    seedreamProcess200 (fun _ => none) (fun _ => .ok 200 [9])
      (.obj [("output", .obj [("choices", .arr [.obj [("message",
        .obj [("content", .arr [.obj [("image",
          .str "http://img")]])])]])])]) ≠
      .ok (specProcessQwen (fun _ => none) (fun _ => .ok 200 [9])
        (.obj [("output", .obj [("choices", .arr [.obj [("message",
          .obj [("content", .arr [.obj [("image",
            .str "http://img")]])])]])])])) := by
  refine ⟨by decide, by decide, by decide⟩

/-- The Python `in` test on a dict equals definedness of the lookup. -/
theorem any_eq_lookFs (fs : List (String × Json)) (k : String) :
    (fs.any (fun p => p.1 == k)) = (lookFs fs k).isSome := by
  induction fs with
  | nil => simp [lookFs]
  | cons p rest ih =>
      rw [List.any_cons, lookFs]
      by_cases h : p.1 = k
      · simp [h]
      · simp [h, ih]

/-- The seedream 200-handler agrees with the spec's ordered parse over its
two shapes — (a) then (c) with `b64_json` first — on well-shaped bodies,
when base64 decoding succeeds and downloads return 200. -/
theorem seedream_spec_equiv (dec : String → Option Bytes)
    (fetchEv : String → FetchRes) (r : Json)
    (hwt : wtSeedream r = true) (hdec : ∀ s, (dec s).isSome = true)
    (hfetch : ∀ u, ∃ c, fetchEv u = .ok 200 c) :
    seedreamProcess200 dec fetchEv r =
      .ok (specProcessSeedream dec fetchEv r) := by
  have hdata : ∀ fs : List (String × Json),
      wtDataSeedream (Json.lookup (.obj fs) "data") = true →
      parserA (.obj fs) = none →
      seedreamDataBranch dec fetchEv (.obj fs) =
        .ok (specProcessSeedream dec fetchEv (.obj fs)) := by
    intro fs hwD hA
    rcases hD : Json.lookup (.obj fs) "data" with _ | v
    all_goals have hD2 : lookFs fs "data" = Json.lookup (.obj fs) "data" := rfl
    · rw [hD] at hD2
      simp [seedreamDataBranch, hD2, specProcessSeedream, specProcessWith,
        firstMatch, parserCSeedream, hA, Json.lookup]
    · rw [hD] at hwD hD2
      cases v with
      | arr xs =>
          cases xs with
          | nil =>
              simp [seedreamDataBranch, hD2, specProcessSeedream,
                specProcessWith, firstMatch, parserCSeedream, hA,
                Json.truthy, Json.lookup]
          | cons item its =>
              cases item with
              | obj itemFs =>
                  rcases hB : lookFs itemFs "b64_json" with _ | bv
                  · have hBany : (itemFs.any (fun p => p.1 == "b64_json")) =
                        false := by simp [any_eq_lookFs, hB]
                    rcases hU : lookFs itemFs "url" with _ | uv
                    · have hUany : (itemFs.any (fun p => p.1 == "url")) =
                          false := by simp [any_eq_lookFs, hU]
                      simp [seedreamDataBranch, hD2, specProcessSeedream,
                        specProcessWith, firstMatch, parserCSeedream, hA,
                        Json.truthy, pyIndex0, pyContains, hBany, hUany,
                        Bind.bind, Except.bind, pure, Except.pure,
                        Json.lookup, hB, hU]
                    · have hUany : (itemFs.any (fun p => p.1 == "url")) =
                          true := by simp [any_eq_lookFs, hU]
                      have hwD2 : wtDataSeedream (some (.arr (.obj itemFs ::
                          its))) = true := hwD
                      rw [wtDataSeedream] at hwD2
                      simp only [Json.lookup, hB, hU, Bool.and_eq_true] at hwD2
                      cases uv <;> simp at hwD2
                      case str u =>
                        obtain ⟨c, hc⟩ := hfetch u
                        simp [seedreamDataBranch, hD2, specProcessSeedream,
                          specProcessWith, firstMatch, parserCSeedream, hA,
                          Json.truthy, pyIndex0, pyContains, pySubscript,
                          hBany, hUany, Bind.bind, Except.bind, pure,
                          Except.pure, Json.lookup, hB, hU, hc]
                  · have hBany : (itemFs.any (fun p => p.1 == "b64_json")) =
                        true := by simp [any_eq_lookFs, hB]
                    have hwD2 : wtDataSeedream (some (.arr (.obj itemFs ::
                        its))) = true := hwD
                    rw [wtDataSeedream] at hwD2
                    simp only [Json.lookup, hB, Bool.and_eq_true] at hwD2
                    cases bv <;> simp at hwD2
                    case str s =>
                      obtain ⟨b, hb⟩ := Option.isSome_iff_exists.mp (hdec s)
                      simp [seedreamDataBranch, hD2, specProcessSeedream,
                        specProcessWith, firstMatch, parserCSeedream, hA,
                        Json.truthy, pyIndex0, pyContains, pySubscript,
                        hBany, Bind.bind, Except.bind, pure, Except.pure,
                        Json.lookup, hB, hb]
              | str s => simp [wtDataSeedream] at hwD
              | num n => simp [wtDataSeedream] at hwD
              | bool b => simp [wtDataSeedream] at hwD
              | null => simp [wtDataSeedream] at hwD
              | arr ys => simp [wtDataSeedream] at hwD
      | str s => simp [wtDataSeedream] at hwD
      | num n => simp [wtDataSeedream] at hwD
      | bool b => simp [wtDataSeedream] at hwD
      | null => simp [wtDataSeedream] at hwD
      | obj gs => simp [wtDataSeedream] at hwD
  cases r with
  | obj fs =>
      simp only [wtSeedream, Bool.and_eq_true] at hwt
      obtain ⟨hwA, hwD⟩ := hwt
      rcases hA : Json.lookup (.obj fs) "images" with _ | v
      · have hpA : parserA (.obj fs) = none := by simp [parserA, hA]
        rw [seedreamProcess200]
        rw [hA]
        exact hdata fs hwD hpA
      · rw [hA] at hwA
        cases v with
        | arr xs =>
            cases xs with
            | nil =>
                have hpA : parserA (.obj fs) = none := by simp [parserA, hA]
                rw [seedreamProcess200, hA]
                simp only [Json.truthy, List.isEmpty_nil, Bool.not_true,
                  ite_false, Bool.false_eq_true, if_false]
                exact hdata fs hwD hpA
            | cons x xs =>
                cases x <;> simp [wtImages] at hwA
                case str s =>
                  obtain ⟨b, hb⟩ := Option.isSome_iff_exists.mp (hdec s)
                  simp [seedreamProcess200, hA, Json.truthy, pyIndex0,
                    Bind.bind, Except.bind, pure, Except.pure, hb,
                    specProcessSeedream, specProcessWith, firstMatch,
                    parserA]
        | str s => simp [wtImages] at hwA
        | num n => simp [wtImages] at hwA
        | bool b => simp [wtImages] at hwA
        | null => simp [wtImages] at hwA
        | obj gs => simp [wtImages] at hwA
  | str s =>
      simp [seedreamProcess200, seedreamDataBranch, Json.lookup,
        specProcessSeedream, specProcessWith, firstMatch, parserA,
        parserCSeedream]
  | num n =>
      simp [seedreamProcess200, seedreamDataBranch, Json.lookup,
        specProcessSeedream, specProcessWith, firstMatch, parserA,
        parserCSeedream]
  | bool b =>
      simp [seedreamProcess200, seedreamDataBranch, Json.lookup,
        specProcessSeedream, specProcessWith, firstMatch, parserA,
        parserCSeedream]
  | null =>
      simp [seedreamProcess200, seedreamDataBranch, Json.lookup,
        specProcessSeedream, specProcessWith, firstMatch, parserA,
        parserCSeedream]
  | arr ys =>
      simp [seedreamProcess200, seedreamDataBranch, Json.lookup,
        specProcessSeedream, specProcessWith, firstMatch, parserA,
        parserCSeedream]

/-- The qwen 200-handler computes the same final `image_data` as the
spec's ordered three-shape parse, on well-shaped bodies and for a fetcher
on which only HTTP URLs can succeed (the handler also feeds the nested
shape's non-HTTP strings to `requests.get`; such a fetch fails under this
hypothesis and leaves the base64 decode in place). -/
theorem qwen_spec_imageData (dec : String → Option Bytes)
    (fetchEv : String → FetchRes) (r : Json)
    (hwt : wtQwen r = true)
    (hfetch : ∀ s, pyStartsWith s "http" = false → fetchEv s = .exc) :
    (qwenProcess200 dec fetchEv r).map P200.imageData =
      .ok ((specProcessQwen dec fetchEv r).imageData) := by
  have htail : ∀ fs : List (String × Json),
      ((Json.lookup (.obj fs) "output").isNone ||
        (parserB (.obj fs)).isSome) = true →
      wtData (Json.lookup (.obj fs) "data") = true →
      parserA (.obj fs) = none →
      ((qwenAfterImages dec (.obj fs)).map (fetchPhase fetchEv)).map
          P200.imageData =
        .ok ((specProcessQwen dec fetchEv (.obj fs)).imageData) := by
    intro fs hwO hwD hA
    simp only [Json.lookup] at hwO hwD
    rcases hO : lookFs fs "output" with _ | out
    · -- no output key: the data branch against parserC
      have hpB : parserB (.obj fs) = none := by
        simp [parserB, Json.lookup, hO]
      rcases hD : lookFs fs "data" with _ | v
      · simp [qwenAfterImages, Json.lookup, hO, hD, fetchPhase,
          Except.map, specProcessQwen, specProcessWith, firstMatch,
          parserC, hA, hpB]
      · rw [hD] at hwD
        cases v with
        | arr xs =>
            cases xs with
            | nil =>
                simp [qwenAfterImages, Json.lookup, hO, hD, fetchPhase,
                  Except.map, specProcessQwen, specProcessWith,
                  firstMatch, parserC, hA, hpB, Json.truthy]
            | cons item its =>
                cases item with
                | obj itemFs =>
                    rcases hU : lookFs itemFs "url" with _ | uv
                    · have hUany : (itemFs.any (fun p => p.1 == "url")) =
                          false := by simp [any_eq_lookFs, hU]
                      rcases hB : lookFs itemFs "b64_json" with _ | bv
                      · have hBany : (itemFs.any (fun p =>
                            p.1 == "b64_json")) = false := by
                          simp [any_eq_lookFs, hB]
                        simp [qwenAfterImages, Json.lookup, hO, hD,
                          qwenBranchData, fetchPhase, Except.map,
                          specProcessQwen, specProcessWith, firstMatch,
                          parserC, hA, hpB, Json.truthy, pyIndex0, pyLen,
                          pyContains, hUany, hBany, Bind.bind,
                          Except.bind, pure, Except.pure, hU, hB]
                      · have hBany : (itemFs.any (fun p =>
                            p.1 == "b64_json")) = true := by
                          simp [any_eq_lookFs, hB]
                        cases bv <;>
                          simp [qwenAfterImages, Json.lookup, hO, hD,
                            qwenBranchData, fetchPhase, Except.map,
                            specProcessQwen, specProcessWith, firstMatch,
                            parserC, hA, hpB, Json.truthy, pyIndex0,
                            pyLen, pyContains, hUany, hBany, Bind.bind,
                            Except.bind, pure, Except.pure, hU, hB,
                            pyDecArg]
                    · have hUany : (itemFs.any (fun p => p.1 == "url")) =
                          true := by simp [any_eq_lookFs, hU]
                      have hwD2 := hwD
                      rw [wtData] at hwD2
                      simp only [Json.lookup, hU, Bool.and_eq_true] at hwD2
                      cases uv <;> simp at hwD2
                      case str u =>
                        by_cases hu0 : u = ""
                        · subst hu0
                          have hfe : fetchEv "" = .exc :=
                            hfetch "" (by decide)
                          simp [qwenAfterImages, Json.lookup, hO, hD,
                            qwenBranchData, fetchPhase, Except.map,
                            specProcessQwen, specProcessWith, firstMatch,
                            parserC, hA, hpB, Json.truthy, pyIndex0,
                            pyLen, pyContains, hUany, Bind.bind,
                            Except.bind, pure, Except.pure, hU, hfe,
                            String.isEmpty]
                        · have hue : u.isEmpty = false := by
                            cases hx : u.isEmpty
                            · rfl
                            · exact absurd ((String.isEmpty_iff u).mp hx) hu0
                          rcases hf : fetchEv u with ⟨st, c⟩ | _
                          · by_cases hst : st = 200 <;>
                              simp [qwenAfterImages, Json.lookup, hO, hD,
                                qwenBranchData, fetchPhase, Except.map,
                                specProcessQwen, specProcessWith,
                                firstMatch, parserC, hA, hpB, Json.truthy,
                                pyIndex0, pyLen, pyContains, hUany,
                                Bind.bind, Except.bind, pure, Except.pure,
                                hU, hf, hst, hu0, hue]
                          · simp [qwenAfterImages, Json.lookup, hO, hD,
                              qwenBranchData, fetchPhase, Except.map,
                              specProcessQwen, specProcessWith,
                              firstMatch, parserC, hA, hpB, Json.truthy,
                              pyIndex0, pyLen, pyContains, hUany,
                              Bind.bind, Except.bind, pure, Except.pure,
                              hU, hf, hu0, hue]
                | str s => simp [wtData] at hwD
                | num n => simp [wtData] at hwD
                | bool b => simp [wtData] at hwD
                | null => simp [wtData] at hwD
                | arr ys => simp [wtData] at hwD
        | str s => simp [wtData] at hwD
        | num n => simp [wtData] at hwD
        | bool b => simp [wtData] at hwD
        | null => simp [wtData] at hwD
        | obj gs => simp [wtData] at hwD
    · -- output key present: the wt hypothesis makes shape (b) fully formed
      have hPB : (parserB (.obj fs)).isSome = true := by
        simpa [Json.lookup, hO] using hwO
      have hO2 : Json.lookup (.obj fs) "output" = some out := hO
      rw [parserB] at hPB
      simp only [hO2] at hPB
      rcases hC : Json.lookup out "choices" with _ | ch
      · simp [hC] at hPB
      · simp only [hC] at hPB
        cases ch with
        | arr chxs =>
            cases chxs with
            | nil => simp at hPB
            | cons choice cs =>
                rcases hM : Json.lookup choice "message" with _ | msg
                · simp [hM] at hPB
                · simp only [hM] at hPB
                  rcases hCt : Json.lookup msg "content" with _ | ct
                  · simp [hCt] at hPB
                  · simp only [hCt] at hPB
                    cases ct with
                    | arr ctxs =>
                        cases ctxs with
                        | nil => simp at hPB
                        | cons content cc =>
                            rcases hImg : Json.lookup content "image"
                              with _ | imgv
                            · simp [hImg] at hPB
                            · simp only [hImg] at hPB
                              cases imgv <;> simp at hPB
                              case str s =>
                                by_cases hse : s = ""
                                · subst hse
                                  simp [qwenAfterImages, hO2,
                                    qwenBranchOutput, hC, hM, hCt, hImg,
                                    Json.truthy, pyIndex0, pyLen,
                                    Bind.bind, Except.bind, pure,
                                    Except.pure, fetchPhase, Except.map,
                                    specProcessQwen, specProcessWith,
                                    firstMatch, parserB, hA,
                                    pyDecArg, String.isEmpty,
                                    show pyStartsWith "" "http"
                                      = false from by decide]
                                · have hseF : s.isEmpty = false := by
                                    cases hx : s.isEmpty
                                    · rfl
                                    · exact absurd ((String.isEmpty_iff s).mp hx)
                                        hse
                                  by_cases hsw : pyStartsWith s "http" =
                                      true
                                  · rcases hf : fetchEv s with ⟨st, c⟩ | _
                                    · by_cases hst : st = 200 <;>
                                        simp [qwenAfterImages,
                                          hO2,
                                          qwenBranchOutput, hC, hM, hCt,
                                          hImg, Json.truthy, pyIndex0,
                                          pyLen, Bind.bind, Except.bind,
                                          pure, Except.pure, fetchPhase,
                                          Except.map, specProcessQwen,
                                          specProcessWith, firstMatch,
                                          parserB, hA, hse, hsw,
                                          hf, hst, hseF]
                                    · simp [qwenAfterImages,
                                        hO2, qwenBranchOutput, hC, hM,
                                        hCt, hImg, Json.truthy, pyIndex0,
                                        pyLen, Bind.bind, Except.bind,
                                        pure, Except.pure, fetchPhase,
                                        Except.map, specProcessQwen,
                                        specProcessWith, firstMatch,
                                        parserB, hA, hse, hsw,
                                        hf, hseF]
                                  · have hsw2 : pyStartsWith s "http" =
                                        false := by
                                      cases hx : pyStartsWith s "http"
                                      · rfl
                                      · exact absurd hx hsw
                                    have hfe : fetchEv s = .exc :=
                                      hfetch s hsw2
                                    simp [qwenAfterImages,
                                      hO2, qwenBranchOutput, hC, hM, hCt,
                                      hImg, Json.truthy, pyIndex0, pyLen,
                                      Bind.bind, Except.bind, pure,
                                      Except.pure, fetchPhase, Except.map,
                                      specProcessQwen, specProcessWith,
                                      firstMatch, parserB, hA,
                                      hse, hsw2, hfe, pyDecArg, hseF]
                    | str s2 => simp at hPB
                    | num n2 => simp at hPB
                    | bool b2 => simp at hPB
                    | null => simp at hPB
                    | obj gs2 => simp at hPB
        | str s2 => simp at hPB
        | num n2 => simp at hPB
        | bool b2 => simp at hPB
        | null => simp at hPB
        | obj gs2 => simp at hPB
  cases r with
  | obj fs =>
      simp only [wtQwen, Bool.and_eq_true] at hwt
      obtain ⟨⟨hwA, hwO⟩, hwD⟩ := hwt
      simp only [Json.lookup] at hwA
      rcases hA : lookFs fs "images" with _ | v
      · have hpA : parserA (.obj fs) = none := by
          simp [parserA, Json.lookup, hA]
        simp only [qwenProcess200, qwenParsePhase, Json.lookup, hA]
        exact htail fs hwO hwD hpA
      · rw [hA] at hwA
        cases v with
        | arr xs =>
            cases xs with
            | nil =>
                have hpA : parserA (.obj fs) = none := by
                  simp [parserA, Json.lookup, hA]
                simp only [qwenProcess200, qwenParsePhase, Json.lookup,
                  hA, Json.truthy, List.isEmpty_nil, Bool.not_true,
                  Bool.false_eq_true, if_false]
                exact htail fs hwO hwD hpA
            | cons x xs =>
                cases x <;> simp [wtImages] at hwA
                case str s =>
                  simp [qwenProcess200, qwenParsePhase, Json.lookup, hA,
                    Json.truthy, pyIndex0, Bind.bind, Except.bind, pure,
                    Except.pure, fetchPhase, Except.map, specProcessQwen,
                    specProcessWith, firstMatch, parserA]
        | str s => simp [wtImages] at hwA
        | num n => simp [wtImages] at hwA
        | bool b => simp [wtImages] at hwA
        | null => simp [wtImages] at hwA
        | obj gs => simp [wtImages] at hwA
  | str s =>
      simp [qwenProcess200, qwenParsePhase, qwenAfterImages, Json.lookup,
        fetchPhase, Except.map, specProcessQwen, specProcessWith,
        firstMatch, parserA, parserB, parserC]
  | num n =>
      simp [qwenProcess200, qwenParsePhase, qwenAfterImages, Json.lookup,
        fetchPhase, Except.map, specProcessQwen, specProcessWith,
        firstMatch, parserA, parserB, parserC]
  | bool b =>
      simp [qwenProcess200, qwenParsePhase, qwenAfterImages, Json.lookup,
        fetchPhase, Except.map, specProcessQwen, specProcessWith,
        firstMatch, parserA, parserB, parserC]
  | null =>
      simp [qwenProcess200, qwenParsePhase, qwenAfterImages, Json.lookup,
        fetchPhase, Except.map, specProcessQwen, specProcessWith,
        firstMatch, parserA, parserB, parserC]
  | arr ys =>
      simp [qwenProcess200, qwenParsePhase, qwenAfterImages, Json.lookup,
        fetchPhase, Except.map, specProcessQwen, specProcessWith,
        firstMatch, parserA, parserB, parserC]

/-- A defined lookup forces the value to be a JSON object. -/
theorem lookup_some_obj {r : Json} {k : String} {v : Json}
    (h : Json.lookup r k = some v) : ∃ fs, r = .obj fs := by
  cases r <;> simp [Json.lookup] at h
  case obj fs => exact ⟨fs, rfl⟩

/-- Shape (a) extracts inline base64, never a URL. -/
theorem parserA_not_url (r : Json) (u : String) :
    parserA r ≠ some (.url u) := by
  rw [parserA]
  rcases h : Json.lookup r "images" with _ | v
  · simp
  · cases v with
    | arr xs =>
        cases xs with
        | nil => simp
        | cons x t => cases x <;> simp
    | str s => simp
    | num n => simp
    | bool b => simp
    | null => simp
    | obj fs => simp

/-- Whatever the download returns, the download step records exactly the
one truthy string URL it was handed. -/
theorem fetchPhase_fetched (fetchEv : String → FetchRes)
    (dta : Option Bytes) (u : String) (hu : u.isEmpty = false) :
    (fetchPhase fetchEv (dta, some (.str u))).fetched = [u] := by
  rw [fetchPhase]
  rcases hf : fetchEv u with ⟨st, c⟩ | _
  · by_cases hst : st = 200 <;> simp [Json.truthy, hu, hf, hst]
  · simp [Json.truthy, hu, hf]

/-- When the spec's ordered parse finds a (non-empty) URL, the qwen
handler attempts exactly one download of that URL — whether the URL came
from the nested shape (b) or from the `data` shape (c). -/
theorem qwen_url_fetch (dec : String → Option Bytes)
    (fetchEv : String → FetchRes) (r : Json) (u : String)
    (hwt : wtQwen r = true)
    (hmatch : firstMatch [parserA, parserB, parserC] r = some (.url u))
    (hu : u ≠ "") :
    ∃ p, qwenProcess200 dec fetchEv r = .ok p ∧ p.fetched = [u] := by
  have hue : u.isEmpty = false := by
    cases hx : u.isEmpty
    · rfl
    · exact absurd ((String.isEmpty_iff u).mp hx) hu
  rcases hpA : parserA r with _ | e
  swap
  · rw [firstMatch, hpA] at hmatch
    simp only [firstMatch, Option.some.injEq] at hmatch
    subst hmatch
    exact absurd hpA (parserA_not_url r u)
  rcases hpB : parserB r with _ | e
  · -- the URL comes from shape (c)
    rw [firstMatch, hpA, firstMatch, hpB, firstMatch] at hmatch
    have hpC : parserC r = some (.url u) := by
      rcases hx : parserC r with _ | e
      · rw [hx] at hmatch; simp [firstMatch] at hmatch
      · rw [hx] at hmatch
        simp only [Option.some.injEq] at hmatch
        rw [hmatch]
    rw [parserC] at hpC
    rcases hD : Json.lookup r "data" with _ | v
    · rw [hD] at hpC; simp at hpC
    · obtain ⟨fs, rfl⟩ := lookup_some_obj hD
      have hD2 : lookFs fs "data" = some v := hD
      rw [hD] at hpC
      cases v with
      | arr xs =>
          cases xs with
          | nil => simp at hpC
          | cons item its =>
              simp only [wtQwen, Bool.and_eq_true] at hwt
              obtain ⟨⟨hwA, hwO⟩, hwD⟩ := hwt
              simp only [Json.lookup] at hwA hwO hwD
              rw [hD2] at hwD
              cases item with
              | obj itemFs =>
                  rcases hU : lookFs itemFs "url" with _ | uv
                  · rw [wtData] at hwD
                    simp only [Json.lookup, hU, Bool.and_eq_true] at hwD
                    simp only [Json.lookup, hU] at hpC
                    rcases hB : lookFs itemFs "b64_json" with _ | bv
                    · rw [hB] at hpC; simp at hpC
                    · rw [hB] at hpC
                      cases bv <;> simp at hpC
                  · rw [wtData] at hwD
                    simp only [Json.lookup, hU, Bool.and_eq_true] at hwD
                    cases uv <;> simp at hwD
                    case str u2 =>
                      simp only [Json.lookup, hU, Option.some.injEq] at hpC
                      cases hpC
                      have hUany : (itemFs.any (fun p => p.1 == "url")) =
                          true := by simp [any_eq_lookFs, hU]
                      have hO : lookFs fs "output" = none := by
                        rcases hx : lookFs fs "output" with _ | out
                        · rfl
                        · rw [hx] at hwO
                          simp [hpB] at hwO
                      have hafter : qwenAfterImages dec (.obj fs) =
                          .ok (none, some (.str u)) := by
                        simp [qwenAfterImages, Json.lookup, hO, hD2,
                          qwenBranchData, Json.truthy, pyIndex0, pyLen,
                          pyContains, hUany, Bind.bind, Except.bind, pure,
                          Except.pure, hU]
                      rcases hA : lookFs fs "images" with _ | v
                      · refine ⟨fetchPhase fetchEv (none, some (.str u)),
                          ?_, fetchPhase_fetched fetchEv none u hue⟩
                        simp only [qwenProcess200, qwenParsePhase,
                          Json.lookup, hA, hafter, Except.map]
                      · rw [hA] at hwA
                        cases v with
                        | arr xs =>
                            cases xs with
                            | nil =>
                                refine ⟨fetchPhase fetchEv
                                  (none, some (.str u)), ?_,
                                  fetchPhase_fetched fetchEv none u hue⟩
                                simp only [qwenProcess200, qwenParsePhase,
                                  Json.lookup, hA, Json.truthy,
                                  List.isEmpty_nil, Bool.not_true,
                                  Bool.false_eq_true, if_false, hafter,
                                  Except.map]
                            | cons x t =>
                                cases x <;> simp [wtImages] at hwA
                                case str s =>
                                  simp [parserA, Json.lookup, hA] at hpA
                        | str s => simp [wtImages] at hwA
                        | num n => simp [wtImages] at hwA
                        | bool b => simp [wtImages] at hwA
                        | null => simp [wtImages] at hwA
                        | obj gs => simp [wtImages] at hwA
              | str s => simp [wtData] at hwD
              | num n => simp [wtData] at hwD
              | bool b => simp [wtData] at hwD
              | null => simp [wtData] at hwD
              | arr ys => simp [wtData] at hwD
      | str s => simp at hpC
      | num n => simp at hpC
      | bool b => simp at hpC
      | null => simp at hpC
      | obj gs => simp at hpC
  · -- the URL comes from shape (b)
    rw [firstMatch, hpA, firstMatch, hpB] at hmatch
    simp only [Option.some.injEq] at hmatch
    subst hmatch
    rw [parserB] at hpB
    rcases hO : Json.lookup r "output" with _ | out
    · rw [hO] at hpB; simp at hpB
    · obtain ⟨fs, rfl⟩ := lookup_some_obj hO
      simp only [hO] at hpB
      rcases hC : Json.lookup out "choices" with _ | ch
      · simp [hC] at hpB
      · simp only [hC] at hpB
        cases ch with
        | arr chxs =>
            cases chxs with
            | nil => simp at hpB
            | cons choice cs =>
                rcases hM : Json.lookup choice "message" with _ | msg
                · simp [hM] at hpB
                · simp only [hM] at hpB
                  rcases hCt : Json.lookup msg "content" with _ | ct
                  · simp [hCt] at hpB
                  · simp only [hCt] at hpB
                    cases ct with
                    | arr ctxs =>
                        cases ctxs with
                        | nil => simp at hpB
                        | cons content cc =>
                            rcases hImg : Json.lookup content "image"
                              with _ | imgv
                            · simp [hImg] at hpB
                            · simp only [hImg] at hpB
                              cases imgv <;> simp at hpB
                              case str s =>
                                by_cases hsw : pyStartsWith s "http" = true
                                · rw [if_pos hsw] at hpB
                                  simp only [Extracted.url.injEq] at hpB
                                  subst hpB
                                  simp only [wtQwen, Bool.and_eq_true]
                                    at hwt
                                  obtain ⟨⟨hwA, _⟩, _⟩ := hwt
                                  simp only [Json.lookup] at hwA
                                  have hafter : qwenAfterImages dec
                                      (.obj fs) =
                                      .ok (none, some (.str s)) := by
                                    simp [qwenAfterImages,
                                      hO, qwenBranchOutput, hC, hM, hCt,
                                      hImg, Json.truthy, pyIndex0, pyLen,
                                      Bind.bind, Except.bind, pure,
                                      Except.pure, hue, hsw]
                                  rcases hA : lookFs fs "images" with _ | v
                                  · refine ⟨fetchPhase fetchEv
                                      (none, some (.str s)), ?_,
                                      fetchPhase_fetched fetchEv none s
                                        hue⟩
                                    simp only [qwenProcess200,
                                      qwenParsePhase, Json.lookup, hA,
                                      hafter, Except.map]
                                  · rw [hA] at hwA
                                    cases v with
                                    | arr xs =>
                                        cases xs with
                                        | nil =>
                                            refine ⟨fetchPhase fetchEv
                                              (none, some (.str s)), ?_,
                                              fetchPhase_fetched fetchEv
                                                none s hue⟩
                                            simp only [qwenProcess200,
                                              qwenParsePhase, Json.lookup,
                                              hA, Json.truthy,
                                              List.isEmpty_nil,
                                              Bool.not_true,
                                              Bool.false_eq_true,
                                              if_false, hafter,
                                              Except.map]
                                        | cons x t =>
                                            cases x <;>
                                              simp [wtImages] at hwA
                                            simp [parserA,
                                              Json.lookup, hA] at hpA
                                    | str s2 => simp [wtImages] at hwA
                                    | num n => simp [wtImages] at hwA
                                    | bool b => simp [wtImages] at hwA
                                    | null => simp [wtImages] at hwA
                                    | obj gs => simp [wtImages] at hwA
                                · rw [if_neg hsw] at hpB
                                  simp at hpB
                    | str s2 => simp at hpB
                    | num n2 => simp at hpB
                    | bool b2 => simp at hpB
                    | null => simp at hpB
                    | obj gs2 => simp at hpB
        | str s2 => simp at hpB
        | num n2 => simp at hpB
        | bool b2 => simp at hpB
        | null => simp at hpB
        | obj gs2 => simp at hpB

/-- C4 (amended): the precedence dispatch is real but keyed on top-level
key presence, and differs between the two synchronous adapters. For the
qwen adapter, on bodies whose present keys carry fully-formed shapes and
with downloads that can only succeed for HTTP URLs, the final
`image_data` equals the spec's ordered (a)/(b)/(c) parse, and whenever
that parse finds a non-empty URL the handler performs exactly one
download of it. The seedream adapter inspects only shapes (a) and (c) —
with `b64_json` before `url` — and agrees with that two-shape ordered
parse on well-shaped bodies when decoding succeeds and downloads return
200. -/
theorem c4_amended :
    (∀ (dec : String → Option Bytes) (fetchEv : String → FetchRes)
        (r : Json), wtQwen r = true →
        (∀ s, pyStartsWith s "http" = false → fetchEv s = .exc) →
        (qwenProcess200 dec fetchEv r).map P200.imageData =
          .ok ((specProcessQwen dec fetchEv r).imageData)) ∧
    (∀ (dec : String → Option Bytes) (fetchEv : String → FetchRes)
        (r : Json) (u : String), wtQwen r = true →
        firstMatch [parserA, parserB, parserC] r = some (.url u) →
        u ≠ "" →
        ∃ p, qwenProcess200 dec fetchEv r = .ok p ∧ p.fetched = [u]) ∧
    (∀ (dec : String → Option Bytes) (fetchEv : String → FetchRes)
        (r : Json), wtSeedream r = true →
        (∀ s, (dec s).isSome = true) →
        (∀ u, ∃ c, fetchEv u = .ok 200 c) →
        seedreamProcess200 dec fetchEv r =
          .ok (specProcessSeedream dec fetchEv r)) :=
  ⟨qwen_spec_imageData, qwen_url_fetch, seedream_spec_equiv⟩

/-- C4 amended witness: a `data`-shape body with an HTTP URL for the qwen
conjuncts, an inline-base64 body for the seedream conjunct. -/
theorem c4_amended_witness :
    (qwenProcess200 (fun _ => some [1])
        (fun s => if pyStartsWith s "http" then FetchRes.ok 200 [9]
                  else .exc)
        (.obj [("data", .arr [.obj [("url", .str "http://x")]])])).map
        P200.imageData =
      .ok ((specProcessQwen (fun _ => some [1])
        (fun s => if pyStartsWith s "http" then FetchRes.ok 200 [9]
                  else .exc)
        (.obj [("data",
          .arr [.obj [("url", .str "http://x")]])])).imageData) ∧
    (∃ p, qwenProcess200 (fun _ => some [1])
        (fun s => if pyStartsWith s "http" then FetchRes.ok 200 [9]
                  else .exc)
        (.obj [("data", .arr [.obj [("url", .str "http://x")]])]) =
          .ok p ∧ p.fetched = ["http://x"]) ∧
    seedreamProcess200 (fun _ => some [1]) (fun _ => .ok 200 [9])
        (.obj [("images", .arr [.str "QQ=="])]) =
      .ok (specProcessSeedream (fun _ => some [1]) (fun _ => .ok 200 [9])
        (.obj [("images", .arr [.str "QQ=="])])) := by
  refine ⟨c4_amended.1 _ _ _ (by decide) ?_,
    c4_amended.2.1 _ _ _ "http://x" (by decide) (by decide) (by decide),
    c4_amended.2.2 _ _ _ (by decide) (fun s => rfl)
      (fun u => ⟨[9], rfl⟩)⟩
  intro s h
  simp [h]
